import Mathlib

/-!
Verification development for the validation and transformation core of a
declarative API-schema compiler (the `design` and `codegen` packages).

The development shallowly embeds the two subsystems:

* `Codegen` — the structural type-transformation compiler (`GoTypeTransform`,
  `transformObject`, `transformArray`, `transformHash`, `computeMapping`).
  Types are finite trees, so they are embedded as inductives; fallible calls
  return an explicit outcome value that distinguishes a returned error from a
  runtime panic (template rendering turns a nested error into a panic via
  `RunTemplate`'s panic-on-error).
* `Design` — the schema validation engine (`APIDefinition.Validate` and the
  per-definition validators), including the route-conflict scan and the
  process-wide `validated` marker set.  Attribute graphs may be cyclic, so
  attributes live in an arena indexed by natural numbers (the arena index
  plays the role of pointer identity) and the recursive validator threads the
  marker set explicitly, with a fuel argument standing in for the call stack;
  a fuel-sufficiency theorem shows the fuel bound is never reached.
-/

set_option maxHeartbeats 1000000

namespace Goa

/-- Primitive kinds of the design data-type model
(boolean / integer / number / string / date-time / any). -/
inductive PrimKind where
  | boolean
  | integer
  | number
  | str
  | dateTime
  | any
deriving DecidableEq, Repr

/-- Diagnostic name of a primitive kind, as design's primitive `Name` renders it.
Modelled from the spec: the spec lists the primitives as
boolean/integer/number/string/datetime/any (design's `Name` methods are not
among the staged files). -/
def primName : PrimKind → String
  | .boolean => "boolean"
  | .integer => "integer"
  | .number => "number"
  | .str => "string"
  | .dateTime => "date-time"
  | .any => "any"

namespace Codegen

/-- Kind tags mirroring design's `Kind` constants as used by the transformation
compiler (`Type.Kind()` comparisons). -/
inductive TKind where
  | booleanKind
  | integerKind
  | numberKind
  | stringKind
  | dateTimeKind
  | anyKind
  | objectKind
  | arrayKind
  | hashKind
deriving DecidableEq, Repr

mutual
/-- Shallow embedding of `design.DataType` as consumed by the transformation
compiler: primitives, objects (name/attribute pairs), arrays (element
attribute) and hashes (key and element attributes).  Named types nested inside
another type are not represented (`typeName` on a field attribute is then
always empty, matching Go's `typeName` returning "" for non-named types). -/
inductive TType where
  | primitive (k : PrimKind)
  | object (fields : List TField)
  | array (elem : TAttr)
  | hash (key elem : TAttr)

/-- Shallow embedding of `design.AttributeDefinition` for the transformation
compiler: a type plus the open metadata mapping (string key to string-list
value), of which only the `transform:key` entry is interpreted. -/
inductive TAttr where
  | mk (type : TType) (metadata : List (String × List String))

/-- One field of a `design.Object`: a name and its attribute. -/
inductive TField where
  | mk (name : String) (attr : TAttr)
end

def TAttr.type : TAttr → TType
  | .mk t _ => t

def TAttr.metadata : TAttr → List (String × List String)
  | .mk _ m => m

def TField.name : TField → String
  | .mk n _ => n

def TField.attr : TField → TAttr
  | .mk _ a => a

/-- Kind of a primitive, as a `TKind` tag. -/
def primKindTag : PrimKind → TKind
  | .boolean => .booleanKind
  | .integer => .integerKind
  | .number => .numberKind
  | .str => .stringKind
  | .dateTime => .dateTimeKind
  | .any => .anyKind

/-- Embedding of `Type.Kind()`. -/
def TType.kind : TType → TKind
  | .primitive k => primKindTag k
  | .object _ => .objectKind
  | .array _ => .arrayKind
  | .hash _ _ => .hashKind

/-- Embedding of `Type.Name()` for diagnostics.  Modelled from the spec:
design's `Name` methods are not among the staged files; composite shapes
render as "object", "array" and "hash" and primitives by their kind name. -/
def TType.name : TType → String
  | .primitive k => primName k
  | .object _ => "object"
  | .array _ => "array"
  | .hash _ _ => "hash"

/-- Name of the metadata entry used to alias a field name for cross-type
matching (the constant `TransformMapKey` of the source). -/
def TransformMapKey : String := "transform:key"

/-- First metadata value list stored under key `k`, if the key is present
(Go's `att.Metadata[TransformMapKey]` with its `ok` flag). -/
def lookupMeta (md : List (String × List String)) (k : String) : Option (List String) :=
  (md.find? (fun p => p.1 = k)).map (fun p => p.2)

/-- Lookup of a field's attribute in an object by name (Go's map index). -/
def lookupField (fields : List TField) (n : String) : Option TAttr :=
  (fields.find? (fun f => f.name = n)).map TField.attr

/-- Default attribute standing for Go's nil map-index result (never reached on
the inputs the compiler builds itself). -/
def defaultTAttr : TAttr := .mk (.primitive .any) []

/-- Insert-or-replace into an association list, modelling assignment into a Go
map (`m[k] = v`): an existing binding of `k` is replaced in place, a new key is
appended.  Iteration over the resulting list models Go's map iteration in one
fixed order. -/
def upsert (m : List (String × String)) (k v : String) : List (String × String) :=
  if m.any (fun p => p.1 = k) then m.map (fun p => if p.1 = k then (k, v) else p)
  else m ++ [(k, v)]

/-- One side of `computeMapping`'s auxiliary map construction: fold the object's
fields into a match-key-to-field-name map, failing when a `transform:key`
metadata entry is declared with an empty value list.  `word` carries the
source text's spelling of "attribute" in the error message (the source spells
it "attribte" for the source side and "attribute" for the target side). -/
def buildKeyMap (ctx word : String) : List TField → List (String × String) →
    Except String (List (String × String))
  | [], m => .ok m
  | f :: rest, m =>
    match lookupMeta f.attr.metadata TransformMapKey with
    | some [] =>
      .error ("invalid metadata transform key: missing value on " ++ word ++ " " ++
        f.name ++ " of " ++ ctx)
    | some (k :: _) => buildKeyMap ctx word rest (upsert m k f.name)
    | none => buildKeyMap ctx word rest (upsert m f.name f.name)

/-- One step of `computeMapping`'s final loop: a source entry (match key,
field name) is added to the attribute map when the target map binds the same
match key. -/
def mapStep (targetMap : List (String × String)) (am : List (String × String))
    (p : String × String) : List (String × String) :=
  match targetMap.find? (fun q => q.1 = p.1) with
  | some q => upsert am p.2 q.2
  | none => am

/-- Embedding of `computeMapping` (source lines 548-578): build the two
match-key maps, then associate a source field name with a target field name
whenever their match keys agree. -/
def computeMapping (source target : List TField) (sctx tctx : String) :
    Except String (List (String × String)) :=
  match buildKeyMap sctx "attribte" source [] with
  | .error e => .error e
  | .ok sourceMap =>
    match buildKeyMap tctx "attribute" target [] with
    | .error e => .error e
    | .ok targetMap => .ok (sourceMap.foldl (mapStep targetMap) [])

/-- Match key of a field: the first `transform:key` metadata value when the
entry is present and non-empty, the field's own name otherwise (the spec's
"explicit alias metadata value if present, else the field's own name"). -/
def matchKey (f : TField) : String :=
  match lookupMeta f.attr.metadata TransformMapKey with
  | some (k :: _) => k
  | _ => f.name

/-- Keys of an association list. -/
def keysOf (m : List (String × String)) : List String := m.map Prod.fst

theorem upsert_eq_append {m : List (String × String)} {k v : String}
    (h : k ∉ keysOf m) : upsert m k v = m ++ [(k, v)] := by
  unfold upsert
  rw [if_neg]
  simp only [List.any_eq_true, not_exists, not_and]
  intro p hp hpk
  exact h (show k ∈ keysOf m from List.mem_map.mpr ⟨p, hp, of_decide_eq_true hpk⟩)

theorem buildKeyMap_error_iff (ctx word : String) (fs : List TField) :
    ∀ m, (∃ e, buildKeyMap ctx word fs m = .error e) ↔
      ∃ f ∈ fs, lookupMeta f.attr.metadata TransformMapKey = some [] := by
  induction fs with
  | nil => intro m; simp [buildKeyMap]
  | cons f rest ih =>
    intro m
    match h : lookupMeta f.attr.metadata TransformMapKey with
    | some [] =>
      simp only [buildKeyMap, h]
      constructor
      · intro _; exact ⟨f, List.mem_cons_self f rest, h⟩
      · intro _; exact ⟨_, rfl⟩
    | some (k :: ks) =>
      simp only [buildKeyMap, h]
      rw [ih]
      constructor
      · rintro ⟨g, hg, hgm⟩; exact ⟨g, List.mem_cons_of_mem f hg, hgm⟩
      · rintro ⟨g, hg, hgm⟩
        rcases List.mem_cons.mp hg with rfl | hg'
        · rw [h] at hgm; cases hgm
        · exact ⟨g, hg', hgm⟩
    | none =>
      simp only [buildKeyMap, h]
      rw [ih]
      constructor
      · rintro ⟨g, hg, hgm⟩; exact ⟨g, List.mem_cons_of_mem f hg, hgm⟩
      · rintro ⟨g, hg, hgm⟩
        rcases List.mem_cons.mp hg with rfl | hg'
        · rw [h] at hgm; cases hgm
        · exact ⟨g, hg', hgm⟩

/-- The match-key map a successful `buildKeyMap` run produces, written directly. -/
def specKeyMap (fs : List TField) : List (String × String) :=
  fs.map (fun f => (matchKey f, f.name))

theorem buildKeyMap_ok_eq (ctx word : String) (fs : List TField) :
    ∀ m r, buildKeyMap ctx word fs m = .ok r →
      (∀ f ∈ fs, matchKey f ∉ keysOf m) →
      (fs.map matchKey).Nodup →
      r = m ++ specKeyMap fs := by
  induction fs with
  | nil =>
    intro m r h _ _
    simp only [buildKeyMap] at h
    cases h
    simp [specKeyMap]
  | cons f rest ih =>
    intro m r h hfresh hnd
    have hndr : (rest.map matchKey).Nodup := (List.nodup_cons.mp (by simpa using hnd)).2
    have hfk : matchKey f ∉ rest.map matchKey := (List.nodup_cons.mp (by simpa using hnd)).1
    have hmem : matchKey f ∉ keysOf m := hfresh f (List.mem_cons_self f rest)
    have hstep : ∀ m', m' = upsert m (matchKey f) f.name →
        buildKeyMap ctx word rest m' = .ok r → r = m ++ specKeyMap (f :: rest) := by
      intro m' hm' hrun
      have hup : m' = m ++ [(matchKey f, f.name)] := by rw [hm', upsert_eq_append hmem]
      have hfresh' : ∀ g ∈ rest, matchKey g ∉ keysOf m' := by
        intro g hg
        rw [hup]
        simp only [keysOf, List.map_append, List.mem_append, List.map_cons, List.map_nil,
          List.mem_singleton, List.mem_cons]
        rintro (hgm | hgk)
        · exact hfresh g (List.mem_cons_of_mem f hg) hgm
        · rcases hgk with hgk | h0
          · exact hfk (hgk ▸ List.mem_map_of_mem matchKey hg)
          · cases h0
      have := ih m' r hrun hfresh' hndr
      rw [this, hup]
      simp [specKeyMap]
    match hmk : lookupMeta f.attr.metadata TransformMapKey with
    | some [] =>
      rw [buildKeyMap, hmk] at h
      cases h
    | some (k :: ks) =>
      rw [buildKeyMap, hmk] at h
      have hk : matchKey f = k := by unfold matchKey; rw [hmk]
      exact hstep _ (by rw [hk]) h
    | none =>
      rw [buildKeyMap, hmk] at h
      have hk : matchKey f = f.name := by unfold matchKey; rw [hmk]
      exact hstep _ (by rw [hk]) h

/-- C9: computeMapping fails, returning an error and no mapping, exactly when
some field of the source or target object declares the `transform:key`
metadata entry with an empty value list; otherwise it succeeds. -/
theorem computeMapping_error_iff (source target : List TField) (sctx tctx : String) :
    (∃ e, computeMapping source target sctx tctx = .error e) ↔
      ((∃ f ∈ source, lookupMeta f.attr.metadata TransformMapKey = some []) ∨
        (∃ f ∈ target, lookupMeta f.attr.metadata TransformMapKey = some [])) := by
  unfold computeMapping
  match hs : buildKeyMap sctx "attribte" source [] with
  | .error e =>
    simp only []
    constructor
    · intro _; exact Or.inl ((buildKeyMap_error_iff sctx "attribte" source []).mp ⟨e, hs⟩)
    · intro _; exact ⟨e, rfl⟩
  | .ok sm =>
    have hsrc : ¬ ∃ f ∈ source, lookupMeta f.attr.metadata TransformMapKey = some [] := by
      intro hc
      rcases (buildKeyMap_error_iff sctx "attribte" source []).mpr hc with ⟨e, he⟩
      rw [hs] at he
      cases he
    match ht : buildKeyMap tctx "attribute" target [] with
    | .error e =>
      simp only []
      constructor
      · intro _
        exact Or.inr ((buildKeyMap_error_iff tctx "attribute" target []).mp ⟨e, ht⟩)
      · intro _; exact ⟨e, rfl⟩
    | .ok tm =>
      have htgt : ¬ ∃ f ∈ target, lookupMeta f.attr.metadata TransformMapKey = some [] := by
        intro hc
        rcases (buildKeyMap_error_iff tctx "attribute" target []).mpr hc with ⟨e, he⟩
        rw [ht] at he
        cases he
      simp only []
      constructor
      · rintro ⟨e, he⟩; cases he
      · rintro (hc | hc)
        · exact absurd hc hsrc
        · exact absurd hc htgt

theorem keysOf_specKeyMap (fs : List TField) : keysOf (specKeyMap fs) = fs.map matchKey := by
  simp [keysOf, specKeyMap, List.map_map]

theorem sndOf_specKeyMap (fs : List TField) :
    (specKeyMap fs).map Prod.snd = fs.map TField.name := by
  simp [specKeyMap, List.map_map]

theorem find?_eq_some_of_mem_nodup {l : List (String × String)} {k v : String}
    (hnd : (l.map Prod.fst).Nodup) (hm : (k, v) ∈ l) :
    l.find? (fun q => q.1 = k) = some (k, v) := by
  induction l with
  | nil => cases hm
  | cons p rest ih =>
    rw [List.map_cons] at hnd
    have hnd' := List.nodup_cons.mp hnd
    rcases List.mem_cons.mp hm with h | hm'
    · rw [← h]
      exact List.find?_cons_of_pos _ (by simp)
    · by_cases hk : p.1 = k
      · exact absurd (hk ▸ List.mem_map.mpr ⟨(k, v), hm', rfl⟩) hnd'.1
      · rw [List.find?_cons_of_neg _ (by simpa using hk)]
        exact ih hnd'.2 hm'

theorem foldl_mapStep_eq (tm : List (String × String)) :
    ∀ (sm acc : List (String × String)),
      (∀ p ∈ sm, p.2 ∉ keysOf acc) →
      (sm.map Prod.snd).Nodup →
      sm.foldl (mapStep tm) acc =
        acc ++ sm.filterMap
          (fun p => (tm.find? (fun q => q.1 = p.1)).map (fun q => (p.2, q.2))) := by
  intro sm
  induction sm with
  | nil => intro acc _ _; simp
  | cons p rest ih =>
    intro acc hfresh hnd
    rw [List.map_cons] at hnd
    have hnd' := List.nodup_cons.mp hnd
    rw [List.foldl_cons]
    match hf : tm.find? (fun q => q.1 = p.1) with
    | none =>
      have hstep : mapStep tm acc p = acc := by unfold mapStep; rw [hf]
      rw [hstep, ih acc (fun g hg => hfresh g (List.mem_cons_of_mem p hg)) hnd'.2]
      simp only [List.filterMap_cons, hf, Option.map_none']
    | some q =>
      have hstep : mapStep tm acc p = upsert acc p.2 q.2 := by unfold mapStep; rw [hf]
      have hup : upsert acc p.2 q.2 = acc ++ [(p.2, q.2)] :=
        upsert_eq_append (hfresh p (List.mem_cons_self p rest))
      have hfresh' : ∀ g ∈ rest, g.2 ∉ keysOf (acc ++ [(p.2, q.2)]) := by
        intro g hg
        simp only [keysOf, List.map_append, List.mem_append, List.map_cons, List.map_nil,
          List.mem_singleton]
        rintro (hgm | hgk)
        · exact hfresh g (List.mem_cons_of_mem p hg) hgm
        · exact hnd'.1 (hgk ▸ List.mem_map.mpr ⟨g, hg, rfl⟩)
      rw [hstep, hup, ih (acc ++ [(p.2, q.2)]) hfresh' hnd'.2, List.append_assoc]
      simp only [List.filterMap_cons, hf, Option.map_some', List.singleton_append]

/-- Characterization of a successful `computeMapping` run when no two fields of
either object share a match key and source field names are unique: a pair
`(a, b)` is in the produced mapping exactly when a source field named `a` and a
target field named `b` have equal match keys. -/
theorem computeMapping_mem_iff
    (source target : List TField) (sctx tctx : String) (m : List (String × String))
    (hsn : (source.map TField.name).Nodup)
    (hsk : (source.map matchKey).Nodup)
    (htk : (target.map matchKey).Nodup)
    (hok : computeMapping source target sctx tctx = .ok m)
    (a b : String) :
    (a, b) ∈ m ↔ ∃ sf ∈ source, ∃ tf ∈ target,
      sf.name = a ∧ tf.name = b ∧ matchKey sf = matchKey tf := by
  unfold computeMapping at hok
  split at hok
  next e he => cases hok
  next sm hs =>
    split at hok
    next e he => cases hok
    next tm ht =>
      have hfold := Except.ok.inj hok
      have hsm : sm = specKeyMap source := by
        have := buildKeyMap_ok_eq sctx "attribte" source [] sm hs
          (by intro f _; simp [keysOf]) hsk
        simpa using this
      have htm : tm = specKeyMap target := by
        have := buildKeyMap_ok_eq tctx "attribute" target [] tm ht
          (by intro f _; simp [keysOf]) htk
        simpa using this
      have hm : m = sm.filterMap
          (fun p => (tm.find? (fun q => q.1 = p.1)).map (fun q => (p.2, q.2))) := by
        have hnd2 : (sm.map Prod.snd).Nodup := by
          rw [hsm, sndOf_specKeyMap]; exact hsn
        have := foldl_mapStep_eq tm sm [] (by intro p _; simp [keysOf]) hnd2
        rw [← hfold, this]
        simp
      rw [hm, List.mem_filterMap]
      constructor
      · rintro ⟨p, hp, hpe⟩
        rw [hsm] at hp
        rcases List.mem_map.mp hp with ⟨sf, hsf, hpeq⟩
        rw [← hpeq] at hpe
        simp only [Option.map_eq_some'] at hpe
        rcases hpe with ⟨q, hfind, habq⟩
        have hq1 : q.1 = matchKey sf := by simpa using List.find?_some hfind
        have hqmem : q ∈ tm := List.mem_of_find?_eq_some hfind
        rw [htm] at hqmem
        rcases List.mem_map.mp hqmem with ⟨tf, htf, hqe⟩
        have ha : sf.name = a := congrArg Prod.fst habq
        have hb : q.2 = b := congrArg Prod.snd habq
        refine ⟨sf, hsf, tf, htf, ha, ?_, ?_⟩
        · rw [← hb, ← hqe]
        · rw [← hq1, ← hqe]
      · rintro ⟨sf, hsf, tf, htf, rfl, rfl, hkeys⟩
        refine ⟨(matchKey sf, sf.name), ?_, ?_⟩
        · rw [hsm]; exact List.mem_map.mpr ⟨sf, hsf, rfl⟩
        · have hmem : (matchKey sf, tf.name) ∈ tm := by
            rw [htm]
            have hx : (matchKey tf, tf.name) ∈ specKeyMap target :=
              List.mem_map.mpr ⟨tf, htf, rfl⟩
            rwa [← hkeys] at hx
          have hndk : (tm.map Prod.fst).Nodup := by
            have hkk := keysOf_specKeyMap target
            rw [keysOf] at hkk
            rw [htm, hkk]
            exact htk
          simp only []
          rw [find?_eq_some_of_mem_nodup hndk hmem]
          rfl

/-- Structural conversion plan produced by the transformation compiler.  The
spec places the text-template mechanics out of scope ("the core only decides
WHAT to emit"), so the emitted plan is kept structural: each node records the
contexts and depth the corresponding template would interpolate. -/
inductive Plan where
  | assign (tctx sctx : String) (depth : Nat)
  | objectInit (tctx targetPkg targetType : String) (depth : Nat) (steps : List Plan)
  | arrayLoop (tctx sctx : String) (depth : Nat) (body : Plan)
  | hashLoop (tctx sctx : String) (depth : Nat) (keyConv elemConv : Plan)

/-- Outcome of a transformation-compiler call: a conversion plan, an error
returned to the caller (Go's non-nil `error` result, with the empty string as
the accompanying result value), a runtime panic (`RunTemplate` panics when a
template-invoked function returns an error, and `GoTypeTransform` panics on
primitive inputs), or exhausted fuel (a model artifact, never reached at the
fuel used in this development). -/
inductive TOut where
  | ok (plan : Plan)
  | fail (msg : String)
  | crash (msg : String)
  | out

/-- The common initialisms `Goify` uppercases (source lines 266-304). -/
def commonInitialisms : List String :=
  ["API", "ASCII", "CPU", "CSS", "DNS", "EOF", "GUID", "HTML", "HTTP", "HTTPS", "ID",
   "IP", "JSON", "LHS", "OK", "QPS", "RAM", "RHS", "RPC", "SLA", "SMTP", "SQL", "SSH",
   "TCP", "TLS", "TTL", "UDP", "UI", "UID", "UUID", "URI", "URL", "UTF8", "VM", "XML",
   "XSRF", "XSS"]

/-- The reserved Go keywords of `fixReserved` (source lines 580-626). -/
def reservedWords : List String :=
  ["byte", "complex128", "complex64", "float32", "float64", "int", "int16", "int32",
   "int64", "int8", "rune", "string", "uint16", "uint32", "uint64", "uint8",
   "break", "case", "chan", "const", "continue", "default", "defer", "else",
   "fallthrough", "for", "func", "go", "goto", "if",
   "import", "interface", "map", "package", "range", "return", "select", "struct",
   "switch", "type", "var"]

/-- Embedding of `validIdentifier` (source lines 369-372): a letter or a digit
(the Unicode classes, modelled on their ASCII fragment — every name in this
development is ASCII). -/
def validIdentifier (c : Char) : Bool := c.isAlpha || c.isDigit

/-- Go's `strings.ToUpper` on the runes of a string (ASCII fragment). -/
def strToUpper (s : String) : String := String.mk (s.data.map Char.toUpper)

/-- Go's `strings.ToLower` on the runes of a string (ASCII fragment). -/
def strToLower (s : String) : String := String.mk (s.data.map Char.toLower)

/-- Embedding of `fixReserved` (source lines 374-379): append an underscore to
a Go reserved keyword. -/
def fixReserved (w : String) : String :=
  if reservedWords.contains w then w ++ "_" else w

/-- The inner loop of `Goify`'s underscore branch (source lines 326-330):
how many further consecutive underscores follow, counted from the head of the
remaining runes. -/
def underscoreRun : List Char → Nat
  | '_' :: rest => underscoreRun rest + 1
  | _ => 0

/-- Go's `copy(runes[w:], cs)` as `Goify`'s initialism replacement uses it:
overwrite in place from position `w`, stopping at whichever side runs out. -/
def goifyCopy : List Char → Nat → List Char → List Char
  | rs, _, [] => rs
  | [], _, _ => []
  | _ :: rs, 0, c :: cs => c :: goifyCopy rs 0 cs
  | r :: rs, k + 1, cs => r :: goifyCopy rs k cs

/-- One word `runes[w:i]` of `Goify` just scanned (source lines 341-361): an
initialism is replaced by its uppercase spelling (lowercased when it is a
first word under `firstUpper = false`); otherwise an all-lowercase word gets
its first character uppercased, except a first word when `firstUpper` is
false; finally a first word under `firstUpper = false` gets its first
character lowercased. -/
def goifyWord (runes : List Char) (w i : Nat) (firstUpper : Bool) : List Char :=
  let word := String.mk ((runes.drop w).take (i - w))
  let u := strToUpper word
  let runes1 :=
    if commonInitialisms.contains u then
      let u2 := if firstUpper then strToUpper u else if w = 0 then strToLower u else u
      goifyCopy runes w u2.data
    else if w > 0 ∧ strToLower word = word then
      runes.set w (runes.getD w ' ').toUpper
    else if w = 0 ∧ strToLower word = word ∧ firstUpper = true then
      runes.set w (runes.getD w ' ').toUpper
    else runes
  if w = 0 ∧ firstUpper = false then runes1.set w (runes1.getD w ' ').toLower
  else runes1

/-- The scanning loop of `Goify` (source lines 313-364): `w` is the start of
the current word, `i` the scan position.  A non-identifier character is
removed, the scan still advancing past the character shifted into its place,
exactly as in the source; a run of underscores after a word character is
dropped and ends the word; a word also ends at the last position and at a
lower-to-non-lower transition.  The fuel is spent once per iteration; the scan
position grows every iteration while the rune list never does, so
`length + 1` fuel always reaches the loop exit. -/
def goifyScan (firstUpper : Bool) : Nat → List Char → Nat → Nat → List Char
  | 0, runes, _, _ => runes
  | fuel + 1, runes, w, i =>
    if i + 1 ≤ runes.length then
      if i + 1 = runes.length then
        goifyScan firstUpper fuel (goifyWord runes w (i + 1) firstUpper) (i + 1) (i + 1)
      else if validIdentifier (runes.getD i ' ') = false then
        goifyScan firstUpper fuel (runes.eraseIdx i) w (i + 1)
      else if runes.getD (i + 1) ' ' = '_' then
        let n := underscoreRun (runes.drop (i + 2)) + 1
        let runes2 := runes.take (i + 1) ++ runes.drop (i + 1 + n)
        goifyScan firstUpper fuel (goifyWord runes2 w (i + 1) firstUpper) (i + 1) (i + 1)
      else if (runes.getD i ' ').isLower ∧ ((runes.getD (i + 1) ' ').isLower = false) then
        goifyScan firstUpper fuel (goifyWord runes w (i + 1) firstUpper) (i + 1) (i + 1)
      else
        goifyScan firstUpper fuel runes w (i + 1)
    else runes

/-- Embedding of `Goify` (source lines 306-367): make a valid Go identifier out
of any string, CamelCased word by word, uppercasing common initialisms and
escaping reserved words.  Unicode letter/digit/case classes are modelled on
their ASCII fragment. -/
def Goify (str : String) (firstUpper : Bool) : String :=
  fixReserved (String.mk (goifyScan firstUpper (str.data.length + 1) str.data 0 0))

/-- The template function `goify` exactly as the transform templates invoke it:
`goify $name true` (source line 672). -/
def goify (s : String) : String := Goify s true

/-- Modelled from the spec: `design.Object`'s `Name()` (not among the staged
files) renders the object type's constant name, independent of any field. -/
def objectGoName : String := "object"

/-- Embedding of `typeName`: the Go type name of a named attribute type, empty
otherwise.  Named types nested in fields are not represented in `TType`, so
the model always takes the anonymous branch and returns the empty string. -/
def typeName (_att : TAttr) : String := ""

/-- Argument bundle for the mutually recursive transform functions, so that the
recursion is structural in its fuel and the definitions reduce by evaluation:
`attr` is `transformAttribute`, `obj` is `transformObject` (on the two field
lists), `arr` is `transformArray` (on the two element attributes) and `hsh` is
`transformHash` (on key and element attributes of both sides). -/
inductive TJob where
  | attr (source target : TAttr) (targetPkg sctx tctx : String) (depth : Nat)
  | obj (source target : List TField) (targetPkg targetType sctx tctx : String) (depth : Nat)
  | arr (selem telem : TAttr) (targetPkg sctx tctx : String) (depth : Nat)
  | hsh (skey selem tkey telem : TAttr) (targetPkg sctx tctx : String) (depth : Nat)

/-- Embedding of the four mutually recursive transform functions of the source
(`transformAttribute` lines 459-474, `transformObject` lines 476-505,
`transformArray` lines 507-521, `transformHash` lines 523-541) together with
the recursive calls their templates make.  A `.fail` produced by a recursive
call made from within template rendering becomes a `.crash`, because
`RunTemplate` panics when template execution reports the error. -/
def transformGo : Nat → TJob → TOut
  | 0, _ => .out
  | f + 1, .attr source target targetPkg sctx tctx depth =>
    if source.type.kind ≠ target.type.kind then
      .fail ("incompatible attribute types: " ++ sctx ++ " is of type " ++ source.type.name ++
        " but " ++ tctx ++ " is of type " ++ target.type.name)
    else
      -- kinds are equal here, so the mismatched combinations are unreachable
      match source.type, target.type with
      | .array se, .array te => transformGo f (.arr se te targetPkg sctx tctx depth)
      | .hash sk se, .hash tk te => transformGo f (.hsh sk se tk te targetPkg sctx tctx depth)
      | .object sf, .object tf =>
        transformGo f (.obj sf tf targetPkg (typeName target) sctx tctx depth)
      | _, _ => .ok (.assign tctx sctx depth)
  | f + 1, .obj source target targetPkg targetType sctx tctx depth =>
    match computeMapping source target sctx tctx with
    | .error e => .fail e
    | .ok attributeMap =>
      -- first validate that all matched attributes are compatible
      match attributeMap.find? (fun p =>
          decide (((lookupField source p.1).getD defaultTAttr).type.kind ≠
            ((lookupField target p.2).getD defaultTAttr).type.kind)) with
      | some p =>
        .fail ("incompatible attribute types: " ++ sctx ++ "." ++ objectGoName ++
          " is of type " ++ ((lookupField source p.1).getD defaultTAttr).type.name ++
          " but " ++ tctx ++ "." ++ objectGoName ++ " is of type " ++
          ((lookupField target p.2).getD defaultTAttr).type.name)
      | none =>
        -- rendering of transformObjectTmpl: each mapped pair either emits a
        -- direct assignment or recursively transforms the composite shapes
        match attributeMap.foldl (fun acc p =>
            match acc with
            | .inl o => .inl o
            | .inr steps =>
              let sAtt := (lookupField source p.1).getD defaultTAttr
              let tAtt := (lookupField target p.2).getD defaultTAttr
              let sctx2 := sctx ++ "." ++ goify p.1
              let tctx2 := tctx ++ "." ++ goify p.2
              match sAtt.type, tAtt.type with
              | .array se, .array te =>
                match transformGo f (.arr se te targetPkg sctx2 tctx2 depth) with
                | .ok pl => .inr (steps ++ [pl])
                | .fail e => .inl (TOut.crash e)
                | .crash e => .inl (TOut.crash e)
                | .out => .inl TOut.out
              | .hash sk se, .hash tk te =>
                match transformGo f (.hsh sk se tk te targetPkg sctx2 tctx2 depth) with
                | .ok pl => .inr (steps ++ [pl])
                | .fail e => .inl (TOut.crash e)
                | .crash e => .inl (TOut.crash e)
                | .out => .inl TOut.out
              | .object sf, .object tf =>
                match transformGo f (.obj sf tf targetPkg (typeName tAtt) sctx2 tctx2 depth) with
                | .ok pl => .inr (steps ++ [pl])
                | .fail e => .inl (TOut.crash e)
                | .crash e => .inl (TOut.crash e)
                | .out => .inl TOut.out
              | .primitive _, _ => .inr (steps ++ [.assign tctx2 sctx2 depth])
              | _, _ => .inl (TOut.crash "template: mismatched attribute shapes"))
          (Sum.inr [] : Sum TOut (List Plan)) with
        | .inl o => o
        | .inr steps => .ok (.objectInit tctx targetPkg targetType depth steps)
  | f + 1, .arr selem telem targetPkg sctx tctx depth =>
    if selem.type.kind ≠ telem.type.kind then
      .fail ("incompatible attribute types: " ++ sctx ++ " is an array with elements of type " ++
        selem.type.name ++ " but " ++ tctx ++ " is an array with elements of type " ++
        telem.type.name)
    else
      match transformGo f (.attr selem telem targetPkg (sctx ++ "[i]") (tctx ++ "[i]")
          (depth + 1)) with
      | .ok body => .ok (.arrayLoop tctx sctx depth body)
      | .fail e => .crash e
      | .crash e => .crash e
      | .out => .out
  | f + 1, .hsh skey selem tkey telem targetPkg sctx tctx depth =>
    if selem.type.kind ≠ telem.type.kind then
      .fail ("incompatible attribute types: " ++ sctx ++ " is a hash with elements of type " ++
        selem.type.name ++ " but " ++ tctx ++ " is a hash with elements of type " ++
        telem.type.name)
    else if skey.type.kind ≠ tkey.type.kind then
      .fail ("incompatible attribute types: " ++ sctx ++ " is a hash with keys of type " ++
        skey.type.name ++ " but " ++ tctx ++ " is a hash with keys of type " ++
        tkey.type.name)
    else
      match transformGo f (.attr skey tkey targetPkg "k" "tk" (depth + 1)) with
      | .ok kc =>
        match transformGo f (.attr selem telem targetPkg "v" "tv" (depth + 1)) with
        | .ok ec => .ok (.hashLoop tctx sctx depth kc ec)
        | .fail e => .crash e
        | .crash e => .crash e
        | .out => .out
      | .fail e => .crash e
      | .crash e => .crash e
      | .out => .out

/-- Embedding of `transformAttribute` (source lines 459-474). -/
def transformAttribute (fuel : Nat) (source target : TAttr)
    (targetPkg sctx tctx : String) (depth : Nat) : TOut :=
  transformGo fuel (.attr source target targetPkg sctx tctx depth)

/-- Embedding of `transformObject` (source lines 476-505). -/
def transformObject (fuel : Nat) (source target : List TField)
    (targetPkg targetType sctx tctx : String) (depth : Nat) : TOut :=
  transformGo fuel (.obj source target targetPkg targetType sctx tctx depth)

/-- Embedding of `transformArray` (source lines 507-521), on the two arrays'
element attributes. -/
def transformArray (fuel : Nat) (selem telem : TAttr)
    (targetPkg sctx tctx : String) (depth : Nat) : TOut :=
  transformGo fuel (.arr selem telem targetPkg sctx tctx depth)

/-- Embedding of `transformHash` (source lines 523-541), on the two hashes'
key and element attributes. -/
def transformHash (fuel : Nat) (skey selem tkey telem : TAttr)
    (targetPkg sctx tctx : String) (depth : Nat) : TOut :=
  transformGo fuel (.hsh skey selem tkey telem targetPkg sctx tctx depth)

/-- A named type definition as taken by `GoTypeTransform`: a type name plus the
underlying type of its backing attribute. -/
structure TUserType where
  typeName : String
  type : TType

/-- Embedding of `GoTypeTransform` (source lines 387-426): dispatch on the
top-level shape of the source, reject a target of a different shape with a
returned error, panic on primitive inputs, and otherwise compile the matching
composite case.  An error from the composite case is returned to the caller
with no plan; on success the impl is wrapped by the function template (text
emission, out of scope), so the plan is returned as is. -/
def GoTypeTransform (fuel : Nat) (source target : TUserType)
    (targetPkg _funcName : String) : TOut :=
  match source.type, target.type with
  | .object sf, .object tf =>
    transformGo fuel (.obj sf tf targetPkg target.typeName "source" "target" 1)
  | .object _, t => .fail ("source is an object but target type is " ++ t.name)
  | .array se, .array te => transformGo fuel (.arr se te targetPkg "source" "target" 1)
  | .array _, t => .fail ("source is an array but target type is " ++ t.name)
  | .hash sk se, .hash tk te =>
    transformGo fuel (.hsh sk se tk te targetPkg "source" "target" 1)
  | .hash _ _, t => .fail ("source is a hash but target type is " ++ t.name)
  | .primitive _, _ => .crash "cannot transform primitive types"

end Codegen

namespace Design

/-- Data types of the design package, over an attribute arena: object fields
and array/hash elements are arena indices (the index plays the role of the
`*AttributeDefinition` pointer identity, so shared and cyclic attribute graphs
are representable), and a media type used as a type is a reference into the
media-type arena. -/
inductive DataType where
  | primitive (k : PrimKind)
  | object (fields : List (String × Nat))
  | array (elem : Nat)
  | hash (key elem : Nat)
  | mediaTypeRef (id : Nat)
deriving DecidableEq, Repr

/-- Kind tags of the design package (`Kind()` values). -/
inductive Kind where
  | booleanKind
  | integerKind
  | numberKind
  | stringKind
  | dateTimeKind
  | anyKind
  | objectKind
  | arrayKind
  | hashKind
  | mediaTypeKind
deriving DecidableEq, Repr

/-- Embedding of `Kind()` on a data type. -/
def DataType.kind : DataType → Kind
  | .primitive .boolean => .booleanKind
  | .primitive .integer => .integerKind
  | .primitive .number => .numberKind
  | .primitive .str => .stringKind
  | .primitive .dateTime => .dateTimeKind
  | .primitive .any => .anyKind
  | .object _ => .objectKind
  | .array _ => .arrayKind
  | .hash _ _ => .hashKind
  | .mediaTypeRef _ => .mediaTypeKind

/-- Embedding of `design.AttributeDefinition` as stored in the arena: the type
(absent models a nil `Type` interface), the required-field names
(`AllRequired()`), and the named view reference the attribute carries. -/
structure AttributeDefinition where
  type : Option DataType := none
  allRequired : List String := []
  view : String := ""
deriving DecidableEq, Repr

/-- The zero attribute, standing for an arena index that is out of range. -/
def defaultAttr : AttributeDefinition := {}

/-- Embedding of `design.ViewDefinition`: its backing attribute and whether its
parent media type pointer is set. -/
structure ViewDefinition where
  attr : Nat
  hasParent : Bool := true
deriving DecidableEq, Repr

/-- Embedding of `design.LinkDefinition`: name, view name and parent media type
(an arena reference, or absent for a nil parent pointer). -/
structure LinkDefinition where
  name : String
  view : String := ""
  parent : Option Nat := none
deriving DecidableEq, Repr

/-- Embedding of `design.MediaTypeDefinition`: the embedded user type's name
and backing attribute (an arena index, so that the `m.Type = String` write is
visible to every holder of the attribute), plus views and links. -/
structure MediaTypeDefinition where
  typeName : String
  identifier : String := ""
  attr : Nat
  views : List (String × ViewDefinition) := []
  links : List LinkDefinition := []
deriving DecidableEq, Repr

/-- Embedding of `design.UserTypeDefinition`: a name and a backing attribute. -/
structure UserTypeDefinition where
  typeName : String
  attr : Nat
deriving DecidableEq, Repr

/-- The default media type, standing for an arena index that is out of range
(never reached on well-formed designs). -/
def defaultMT : MediaTypeDefinition := { typeName := "", attr := 0 }

/-- The static part of the design graph the validators consult: the media-type
arena. -/
structure Graph where
  mediaTypes : List MediaTypeDefinition := []
deriving DecidableEq, Repr

/-- The mutable state of a validation run: the attribute arena (mutable
because `MediaTypeDefinition.Validate` writes `m.Type = String`) and the
process-wide `validated` marker map keyed by attribute identity (source line
378: a package-level variable that is never reset). -/
structure VState where
  attrs : List AttributeDefinition
  validated : Finset Nat := ∅
deriving DecidableEq

/-- Outcome of a stateful validation step: a value together with the threaded
state, a runtime panic, or exhausted fuel (a model artifact standing for the
call stack; never reached at the bound `validateFuelBound` provides). -/
inductive Res (α : Type) where
  | ok (a : α)
  | crash (msg : String)
  | out
deriving DecidableEq, Repr

/-- Embedding of `ToObject` on a data type: an object yields its fields; a
media type resolves to the object underlying its backing attribute.  Modelled
from the spec for named types: "Named/Media types by substituting their
underlying definition before recursing" (one level of substitution; a chain of
named types at type position is not representable in this model). -/
def toObject (g : Graph) (attrs : List AttributeDefinition) :
    DataType → Option (List (String × Nat))
  | .object fields => some fields
  | .mediaTypeRef mid =>
    match g.mediaTypes.get? mid with
    | some m =>
      match (attrs.getD m.attr defaultAttr).type with
      | some (.object fields) => some fields
      | _ => none
    | none => none
  | _ => none

/-- Embedding of `IsArray` / `ToArray().ElemType` on a data type, resolving a
media type to its underlying definition one level as in `toObject`. -/
def toArrayElem (g : Graph) (attrs : List AttributeDefinition) : DataType → Option Nat
  | .array e => some e
  | .mediaTypeRef mid =>
    match g.mediaTypes.get? mid with
    | some m =>
      match (attrs.getD m.attr defaultAttr).type with
      | some (.array e) => some e
      | _ => none
    | none => none
  | _ => none

/-- Arena indices a data type mentions directly. -/
def typeIds : DataType → Finset Nat
  | .object fields => fields.foldr (fun f acc => insert f.2 acc) ∅
  | .array e => {e}
  | .hash k e => {k, e}
  | _ => ∅

/-- All arena indices mentioned by some attribute of the arena; the recursive
validator only ever recurses into these. -/
def mentionedIds (attrs : List AttributeDefinition) : Finset Nat :=
  attrs.foldr (fun a acc =>
    (match a.type with | some t => typeIds t | none => ∅) ∪ acc) ∅

/-- Rendered `Context()` of an attribute passed as the parent of its children's
diagnostics.  Modelled from the spec: `Context` renderings are not among the
staged files; the arena index identifies the attribute. -/
def attrContext (id : Nat) : String := "attribute " ++ toString id

/-- Double-quote a string, as the `"%s"` interpolations of the source do. -/
def quoted (s : String) : String := "\"" ++ s ++ "\""

/-- The object-field loop of `AttributeDefinition.Validate`: validate each
field with the given recursive validator, threading the marker state and
appending the diagnostics to the accumulator. -/
def foldFields (recv : String → Nat → VState → Res (VState × List String)) :
    List (String × Nat) → Res (VState × List String) → Res (VState × List String)
  | [], acc => acc
  | p :: rest, acc =>
    match acc with
    | .ok (st, errs) =>
      match recv p.1 p.2 st with
      | .ok (st2, errs2) => foldFields recv rest (.ok (st2, errs ++ errs2))
      | .crash m => .crash m
      | .out => .out
    | .crash m => .crash m
    | .out => .out

/-- The list of required-field diagnostics of an object attribute (the first
loop of the object branch of `AttributeDefinition.Validate`): one diagnostic
per required name matching no field. -/
def requiredErrs (allRequired : List String) (fields : List (String × Nat))
    (ctx1 parent : String) : List String :=
  allRequired.filterMap (fun n =>
    if fields.any (fun f2 => f2.1 = n) then none
    else some (parent ++ ": " ++ ctx1 ++ "required field " ++ quoted n ++
      " does not exist"))

/-- Embedding of `AttributeDefinition.Validate` (source lines 384-423) over the
arena, with the process-wide `validated` marker map threaded in the state and a
fuel argument standing in for the call stack.  An already-marked attribute is
skipped before any fuel is consumed, exactly as the source returns nil before
doing any work; otherwise the attribute is marked, a nil type is reported, and
an object's required-field names and fields (or an array's element attribute)
are checked recursively. -/
def AttributeDefinition.Validate (g : Graph) : Nat → Nat → String → String → VState →
    Res (VState × List String)
  | 0, id, _ctx, _parent, s =>
    if id ∈ s.validated then .ok (s, []) else .out
  | f + 1, id, ctx, parent, s =>
    if id ∈ s.validated then .ok (s, [])
    else
      match (s.attrs.getD id defaultAttr).type with
      | none =>
        .ok ({ s with validated := insert id s.validated },
          [parent ++ ": attribute type is nil"])
      | some t =>
        match toObject g s.attrs t with
        | some fields =>
          foldFields
            (fun n cid st =>
              AttributeDefinition.Validate g f cid ("field " ++ n) (attrContext id) st)
            fields
            (.ok ({ s with validated := insert id s.validated },
              requiredErrs (s.attrs.getD id defaultAttr).allRequired fields
                (if ctx ≠ "" then ctx ++ " - " else ctx) parent))
        | none =>
          match toArrayElem g s.attrs t with
          | some elemId =>
            AttributeDefinition.Validate g f elemId (if ctx ≠ "" then ctx ++ " - " else ctx)
              (attrContext id) { s with validated := insert id s.validated }
          | none => .ok ({ s with validated := insert id s.validated }, [])

/-- Fuel that provably suffices for any single `AttributeDefinition.Validate`
call on the given arena (see `Validate_no_out`). -/
def validateFuelBound (attrs : List AttributeDefinition) : Nat :=
  (mentionedIds attrs).card + 1

theorem mem_foldr_insert_snd {fields : List (String × Nat)} {x : Nat} :
    x ∈ fields.foldr (fun f acc => insert f.2 acc) (∅ : Finset Nat) ↔
      ∃ p ∈ fields, p.2 = x := by
  induction fields with
  | nil => simp
  | cons p rest ih =>
    constructor
    · intro hx
      rcases Finset.mem_insert.mp hx with h | h
      · exact ⟨p, List.mem_cons_self p rest, h.symm⟩
      · rcases ih.mp h with ⟨q, hq, hqx⟩
        exact ⟨q, List.mem_cons_of_mem p hq, hqx⟩
    · rintro ⟨q, hq, hqx⟩
      rcases List.mem_cons.mp hq with h | h
      · exact Finset.mem_insert.mpr (Or.inl (by rw [h] at hqx; exact hqx.symm))
      · exact Finset.mem_insert.mpr (Or.inr (ih.mpr ⟨q, h, hqx⟩))

theorem mem_typeIds_object {fields : List (String × Nat)} {x : Nat} :
    x ∈ typeIds (.object fields) ↔ ∃ p ∈ fields, p.2 = x := by
  show x ∈ fields.foldr (fun f acc => insert f.2 acc) ∅ ↔ _
  exact mem_foldr_insert_snd

theorem typeIds_subset_mentioned {attrs : List AttributeDefinition}
    {a : AttributeDefinition} {t : DataType}
    (ha : a ∈ attrs) (ht : a.type = some t) : typeIds t ⊆ mentionedIds attrs := by
  induction attrs with
  | nil => cases ha
  | cons b rest ih =>
    rcases List.mem_cons.mp ha with h | ha'
    · intro x hx
      show x ∈ (match b.type with | some u => typeIds u | none => ∅) ∪ mentionedIds rest
      rw [← h, ht]
      exact Finset.mem_union_left _ hx
    · intro x hx
      show x ∈ (match b.type with | some u => typeIds u | none => ∅) ∪ mentionedIds rest
      exact Finset.mem_union_right _ (ih ha' hx)

theorem getD_type_mem {attrs : List AttributeDefinition} {j : Nat} {t : DataType}
    (h : (attrs.getD j defaultAttr).type = some t) :
    ∃ a ∈ attrs, a.type = some t := by
  by_cases hj : j < attrs.length
  · refine ⟨attrs.getD j defaultAttr, ?_, h⟩
    rw [List.getD_eq_getElem?_getD, List.getElem?_eq_getElem hj]
    exact List.getElem_mem hj
  · rw [List.getD_eq_getElem?_getD, List.getElem?_eq_none (Nat.le_of_not_lt hj)] at h
    cases h

theorem getD_typeIds_subset {attrs : List AttributeDefinition} {j : Nat} {t : DataType}
    (h : (attrs.getD j defaultAttr).type = some t) : typeIds t ⊆ mentionedIds attrs := by
  rcases getD_type_mem h with ⟨a, ha, ht⟩
  exact typeIds_subset_mentioned ha ht

theorem toObject_child_mem {g : Graph} {attrs : List AttributeDefinition}
    {j : Nat} {t : DataType} {fields : List (String × Nat)} {p : String × Nat}
    (ht : (attrs.getD j defaultAttr).type = some t)
    (ho : toObject g attrs t = some fields)
    (hc : p ∈ fields) : p.2 ∈ mentionedIds attrs := by
  cases t with
  | object f =>
    simp only [toObject] at ho
    cases ho
    exact getD_typeIds_subset ht (mem_typeIds_object.mpr ⟨p, hc, rfl⟩)
  | mediaTypeRef mid =>
    simp only [toObject] at ho
    split at ho
    next m hmm =>
      split at ho
      next f' hmt =>
        cases ho
        exact getD_typeIds_subset hmt (mem_typeIds_object.mpr ⟨p, hc, rfl⟩)
      next hmt => cases ho
    next hmm => cases ho
  | primitive k => simp [toObject] at ho
  | array e => simp [toObject] at ho
  | hash k e => simp [toObject] at ho

theorem toArrayElem_mem {g : Graph} {attrs : List AttributeDefinition}
    {j : Nat} {t : DataType} {e : Nat}
    (ht : (attrs.getD j defaultAttr).type = some t)
    (ha : toArrayElem g attrs t = some e) : e ∈ mentionedIds attrs := by
  cases t with
  | array e' =>
    simp only [toArrayElem] at ha
    cases ha
    exact getD_typeIds_subset ht (by simp [typeIds])
  | mediaTypeRef mid =>
    simp only [toArrayElem] at ha
    split at ha
    next m hmm =>
      split at ha
      next e' hmt =>
        cases ha
        exact getD_typeIds_subset hmt (by simp [typeIds])
      next hmt => cases ha
    next hmm => cases ha
  | primitive k => simp [toArrayElem] at ha
  | object f => simp [toArrayElem] at ha
  | hash k e' => simp [toArrayElem] at ha

theorem foldFields_mono {recv : String → Nat → VState → Res (VState × List String)}
    (hrecv : ∀ n cid st st' e, recv n cid st = .ok (st', e) →
      st'.attrs = st.attrs ∧ st.validated ⊆ st'.validated) :
    ∀ (fields : List (String × Nat)) (s0 : VState) (e0 : List String)
      (s' : VState) (e : List String),
      foldFields recv fields (.ok (s0, e0)) = .ok (s', e) →
      s'.attrs = s0.attrs ∧ s0.validated ⊆ s'.validated := by
  intro fields
  induction fields with
  | nil =>
    intro s0 e0 s' e h
    simp only [foldFields] at h
    cases h
    exact ⟨rfl, subset_refl _⟩
  | cons p rest ih =>
    intro s0 e0 s' e h
    simp only [foldFields] at h
    match hr : recv p.1 p.2 s0 with
    | .ok (st2, errs2) =>
      rw [hr] at h
      have h2 := ih st2 (e0 ++ errs2) s' e h
      have h1 := hrecv _ _ _ _ _ hr
      exact ⟨h2.1.trans h1.1, h1.2.trans h2.2⟩
    | .crash m => rw [hr] at h; cases h
    | .out => rw [hr] at h; cases h

/-- After a completed validation call the arena is unchanged, the marker map
has only grown, and the validated attribute is marked. -/
theorem Validate_mono (g : Graph) : ∀ (fuel id : Nat) (ctx parent : String)
    (s s' : VState) (errs : List String),
    AttributeDefinition.Validate g fuel id ctx parent s = .ok (s', errs) →
    s'.attrs = s.attrs ∧ s.validated ⊆ s'.validated ∧ id ∈ s'.validated := by
  intro fuel
  induction fuel with
  | zero =>
    intro id ctx parent s s' errs h
    unfold AttributeDefinition.Validate at h
    by_cases hm : id ∈ s.validated
    · rw [if_pos hm] at h
      cases h
      exact ⟨rfl, subset_refl _, hm⟩
    · rw [if_neg hm] at h
      cases h
  | succ f ih =>
    intro id ctx parent s s' errs h
    unfold AttributeDefinition.Validate at h
    by_cases hm : id ∈ s.validated
    · rw [if_pos hm] at h
      cases h
      exact ⟨rfl, subset_refl _, hm⟩
    · rw [if_neg hm] at h
      have hins : s.validated ⊆ insert id s.validated := Finset.subset_insert _ _
      have hmem : id ∈ (insert id s.validated : Finset Nat) := Finset.mem_insert_self _ _
      split at h
      · cases h
        exact ⟨rfl, hins, hmem⟩
      · split at h
        · have hrecv : ∀ n cid st st' e,
              (fun n cid st => AttributeDefinition.Validate g f cid ("field " ++ n)
                (attrContext id) st) n cid st = .ok (st', e) →
              st'.attrs = st.attrs ∧ st.validated ⊆ st'.validated := by
            intro n cid st st' e hh
            have h3 := ih cid ("field " ++ n) (attrContext id) st st' e hh
            exact ⟨h3.1, h3.2.1⟩
          have hf := foldFields_mono hrecv _ _ _ s' errs h
          exact ⟨hf.1, hins.trans hf.2, hf.2 hmem⟩
        · split at h
          · have h2 := ih _ _ _ _ s' errs h
            exact ⟨h2.1, hins.trans h2.2.1, h2.2.1 hmem⟩
          · cases h
            exact ⟨rfl, hins, hmem⟩

theorem card_sdiff_insert_lt {M v : Finset Nat} {x : Nat} {f : Nat}
    (hx : x ∈ M) (hnv : x ∉ v) (hle : (M \ v).card ≤ f) :
    (M \ insert x v).card < f := by
  have hmem : x ∈ M \ v := Finset.mem_sdiff.mpr ⟨hx, hnv⟩
  rw [Finset.sdiff_insert, Finset.card_erase_of_mem hmem]
  have h1 : 1 ≤ (M \ v).card := Finset.card_pos.mpr ⟨x, hmem⟩
  omega

theorem foldFields_no_out (M : Finset Nat) (A : List AttributeDefinition)
    {recv : String → Nat → VState → Res (VState × List String)} {f : Nat}
    (hmono : ∀ n cid st st' e, recv n cid st = .ok (st', e) →
      st'.attrs = st.attrs ∧ st.validated ⊆ st'.validated)
    (hno : ∀ n cid st, st.attrs = A → cid ∈ M → (M \ st.validated).card ≤ f →
      recv n cid st ≠ .out) :
    ∀ (fields : List (String × Nat)) (s0 : VState) (e0 : List String),
      s0.attrs = A →
      (∀ p ∈ fields, p.2 ∈ M) →
      (M \ s0.validated).card ≤ f →
      foldFields recv fields (.ok (s0, e0)) ≠ .out := by
  intro fields
  induction fields with
  | nil =>
    intro s0 e0 _ _ _ h
    simp only [foldFields] at h
    cases h
  | cons p rest ih =>
    intro s0 e0 hA hc hcard
    simp only [foldFields]
    match hr : recv p.1 p.2 s0 with
    | .crash m => simp
    | .out => exact absurd hr (hno p.1 p.2 s0 hA (hc p (List.mem_cons_self p rest)) hcard)
    | .ok (st2, errs2) =>
      have hmo := hmono _ _ _ _ _ hr
      apply ih st2 (e0 ++ errs2) (hmo.1.trans hA)
        (fun q hq => hc q (List.mem_cons_of_mem p hq))
      exact le_trans
        (Finset.card_le_card (Finset.sdiff_subset_sdiff (Finset.Subset.refl M) hmo.2)) hcard

/-- The validator never exhausts its fuel when the fuel exceeds the number of
arena indices mentioned anywhere in the arena and not yet marked: every level
of recursion marks a previously unmarked mentioned index before descending. -/
theorem Validate_no_out (g : Graph) : ∀ (fuel id : Nat) (ctx parent : String) (s : VState),
    (id ∈ s.validated ∨ (mentionedIds s.attrs \ insert id s.validated).card < fuel) →
    AttributeDefinition.Validate g fuel id ctx parent s ≠ .out := by
  intro fuel
  induction fuel with
  | zero =>
    intro id ctx parent s hh
    rcases hh with hm | hcard
    · unfold AttributeDefinition.Validate
      rw [if_pos hm]
      simp
    · cases Nat.not_lt_zero _ hcard
  | succ f ih =>
    intro id ctx parent s hh
    unfold AttributeDefinition.Validate
    by_cases hm : id ∈ s.validated
    · rw [if_pos hm]
      simp
    · rw [if_neg hm]
      have hcard : (mentionedIds s.attrs \ insert id s.validated).card ≤ f := by
        rcases hh with hm' | hc
        · exact absurd hm' hm
        · omega
      split
      · simp
      · next t hty =>
        split
        · next fields hob =>
          apply foldFields_no_out (mentionedIds s.attrs) s.attrs
          · intro n cid st st' e hh2
            have h3 := Validate_mono g f cid ("field " ++ n) (attrContext id) st st' e hh2
            exact ⟨h3.1, h3.2.1⟩
          · intro n cid st hA hcm hcd
            apply ih cid ("field " ++ n) (attrContext id) st
            by_cases hcv : cid ∈ st.validated
            · exact Or.inl hcv
            · refine Or.inr ?_
              rw [hA]
              exact card_sdiff_insert_lt hcm hcv hcd
          · rfl
          · intro p hp
            exact toObject_child_mem hty hob hp
          · exact hcard
        · next hob =>
          split
          · next elemId har =>
            apply ih
            by_cases hev : elemId ∈ (insert id s.validated : Finset Nat)
            · exact Or.inl hev
            · refine Or.inr ?_
              have hem : elemId ∈ mentionedIds s.attrs := toArrayElem_mem hty har
              exact card_sdiff_insert_lt hem hev hcard
          · simp

/-- An attribute already marked is skipped whole: the call returns immediately
with no diagnostics and an unchanged state, whatever the fuel. -/
theorem Validate_skip (g : Graph) (fuel id : Nat) (ctx parent : String) (s : VState)
    (h : id ∈ s.validated) :
    AttributeDefinition.Validate g fuel id ctx parent s = .ok (s, []) := by
  cases fuel with
  | zero =>
    unfold AttributeDefinition.Validate
    rw [if_pos h]
  | succ f =>
    unfold AttributeDefinition.Validate
    rw [if_pos h]

/-- A path segment: literal text, or a wildcard (written `/:name` in a path
string). -/
inductive Seg where
  | lit (text : String)
  | wc (name : String)
deriving DecidableEq, Repr

/-- Rendering of a path to its string form (a wildcard renders as `/:name`). -/
def pathRender (p : List Seg) : String :=
  String.join (p.map (fun s => match s with | .lit t => t | .wc n => "/:" ++ n))

/-- Modelled from the spec: the route key is "the full path with every wildcard
segment replaced by a fixed placeholder token" (the regex performing the
replacement, design's `WildcardRegex`, is not among the staged files); a
wildcard segment renders as `/*`. -/
def keyRender (p : List Seg) : String :=
  String.join (p.map (fun s => match s with | .lit t => t | .wc _ => "/*"))

/-- Embedding of `ExtractWildcards`: the ordered wildcard names of a path. -/
def ExtractWildcards (p : List Seg) : List String :=
  p.filterMap (fun s => match s with | .wc n => some n | .lit _ => none)

/-- Go's `strings.Contains`, on the characters of the strings. -/
def strContains (hay needle : String) : Bool :=
  decide (needle.data <:+: hay.data)

/-- Go's `strings.HasPrefix hay pre`, on the characters of the strings. -/
def strHasPfx (hay pre : String) : Bool :=
  pre.data.isPrefixOf hay.data

/-- Embedding of `design.DocsDefinition` (only the URL is validated). -/
structure DocsDefinition where
  url : String := ""
deriving DecidableEq, Repr

/-- Embedding of `design.ResponseDefinition`: status code and optional
header attribute. -/
structure ResponseDefinition where
  status : Nat := 0
  headers : Option Nat := none
deriving DecidableEq, Repr

/-- Embedding of `design.RouteDefinition`: a verb and a path relative to the
resource base path. -/
structure RouteDefinition where
  verb : String := "GET"
  path : List Seg := []
deriving DecidableEq, Repr

/-- Embedding of `design.ActionDefinition`.  `hasParent` models whether the
`Parent` back-pointer is set (when it is, the builder sets it to the enclosing
resource, which is how the model reads the parent's full path). -/
structure ActionDefinition where
  name : String := ""
  routes : List RouteDefinition := []
  params : Option Nat := none
  payload : Option Nat := none
  responses : List ResponseDefinition := []
  docs : Option DocsDefinition := none
  hasParent : Bool := true
deriving DecidableEq, Repr

/-- Embedding of `design.ResourceDefinition`. -/
structure ResourceDefinition where
  name : String := ""
  basePath : List Seg := []
  baseParams : Option Nat := none
  parentName : String := ""
  canonicalActionName : String := ""
  actions : List ActionDefinition := []
  responses : List ResponseDefinition := []
  params : Option Nat := none
deriving DecidableEq, Repr

/-- Embedding of `design.EncodingDefinition`. -/
structure EncodingDefinition where
  mimeTypes : List String := []
  packagePath : String := ""
  function : String := ""
deriving DecidableEq, Repr

/-- Embedding of `design.APIDefinition`.  Contact, license and docs carry only
the URL the validator checks (`none` models the nil pointer). -/
structure APIDefinition where
  contact : Option String := none
  license : Option String := none
  docs : Option String := none
  baseParams : Option Nat := none
  resources : List ResourceDefinition := []
  userTypes : List UserTypeDefinition := []
  responses : List ResponseDefinition := []
  consumes : List EncodingDefinition := []
  produces : List EncodingDefinition := []
deriving DecidableEq, Repr

/-- Embedding of `wildCardInfo` (source lines 23-26): a wildcard name plus the
rendered context of the definition it originates from. -/
structure WildcardInfo where
  name : String
  orig : String
deriving DecidableEq, Repr

/-- Embedding of `routeInfo` (source lines 15-21), with the list position
standing in for the record's pointer identity. -/
structure RouteInfo where
  key : String
  wildcards : List WildcardInfo
  fullPath : String
  resourceName : String
  actionName : String
deriving DecidableEq, Repr

/-- Embedding of `newRouteInfo` (source lines 28-50): compute the route's full
path (resource base path followed by the route path), its structural key, and
the ordered wildcards, attributing each wildcard to the route when its name
occurs in the route's own path text, else to the resource when it occurs in
the base path text, else to the API's shared definitions (`Design`). -/
def newRouteInfo (resource : ResourceDefinition) (action : ActionDefinition)
    (route : RouteDefinition) : RouteInfo :=
  let full := resource.basePath ++ route.path
  { key := keyRender full
    wildcards := (ExtractWildcards full).map (fun v =>
      if strContains (pathRender route.path) v then
        WildcardInfo.mk v ("route " ++ pathRender route.path)
      else if strContains (pathRender resource.basePath) v then
        WildcardInfo.mk v ("resource " ++ resource.name)
      else WildcardInfo.mk v "API")
    fullPath := pathRender full
    resourceName := resource.name
    actionName := action.name }

/-- The wildcard pairs `DifferentWildcards` collects: positions of `other`'s
wildcards where the target route `r` uses a different name, as (target
wildcard, other wildcard) pairs. -/
def diffPairs (r other : RouteInfo) : List (WildcardInfo × WildcardInfo) :=
  (r.wildcards.zip other.wildcards).filterMap
    (fun d => if d.1.name ≠ d.2.name then some d else none)

/-- Embedding of `routeInfo.DifferentWildcards` (source lines 54-61): the loop
iterates over `other`'s wildcards and indexes `r`'s wildcards at the same
position, which in Go panics when `r` has fewer wildcards (under the scan's
prefix guard this cannot happen, see `routeConflicts_ok`). -/
def DifferentWildcards (r other : RouteInfo) : Res (List (WildcardInfo × WildcardInfo)) :=
  if other.wildcards.length ≤ r.wildcards.length then .ok (diffPairs r other)
  else .crash "index out of range"

/-- The conflict diagnostic of source lines 110-123. -/
def conflictMsg (route other : RouteInfo)
    (diffs : List (WildcardInfo × WildcardInfo)) : String :=
  "route " ++ quoted route.fullPath ++ " conflicts with route " ++
    quoted other.fullPath ++ " of " ++ other.resourceName ++ " action " ++
    other.actionName ++
    ". Make sure wildcards at the same positions have the same name. " ++
    "Conflicting wildcards are " ++
    String.intercalate ", " (diffs.map (fun d =>
      quoted d.1.name ++ " from " ++ d.1.orig ++ " and " ++
        quoted d.2.name ++ " from " ++ d.2.orig)) ++ "."

/-- One reported route conflict: the indices of the two routes (route, other)
and the rendered diagnostic. -/
structure RouteConflict where
  routeIdx : Nat
  otherIdx : Nat
  msg : String
deriving DecidableEq, Repr

/-- Inner loop of the conflict scan (source lines 103-126) for the route at
index `i`: compare against every route (position inequality standing in for
the pointer inequality `route == other`), and when the other's key is a string
prefix of this route's key, report the positional wildcard mismatches. -/
def scanOthers (i : Nat) (r : RouteInfo) : Nat → List RouteInfo → Res (List RouteConflict)
  | _, [] => .ok []
  | j, o :: rest =>
    if i = j then scanOthers i r (j + 1) rest
    else if strHasPfx r.key o.key then
      match DifferentWildcards r o with
      | .ok diffs =>
        match scanOthers i r (j + 1) rest with
        | .ok cs =>
          .ok ((if diffs.isEmpty then [] else [⟨i, j, conflictMsg r o diffs⟩]) ++ cs)
        | .crash m => .crash m
        | .out => .out
      | .crash m => .crash m
      | .out => .out
    else scanOthers i r (j + 1) rest

/-- Outer loop of the conflict scan (source lines 102-127). -/
def scanRoutes (all : List RouteInfo) : Nat → List RouteInfo → Res (List RouteConflict)
  | _, [] => .ok []
  | i, r :: rest =>
    match scanOthers i r 0 all with
    | .ok cs =>
      match scanRoutes all (i + 1) rest with
      | .ok cs2 => .ok (cs ++ cs2)
      | .crash m => .crash m
      | .out => .out
    | .crash m => .crash m
    | .out => .out

/-- The route-conflict scan of `APIDefinition.Validate` over the collected
route records. -/
def routeConflicts (routes : List RouteInfo) : Res (List RouteConflict) :=
  scanRoutes routes 0 routes

/-- Number of wildcard placeholders in a structural key. -/
def starCount (s : String) : Nat := s.data.count '*'

/-- A route record is well formed when its wildcard list matches its key's
placeholder count; `newRouteInfo` establishes this for paths whose literal
text contains no placeholder character. -/
def routeWF (r : RouteInfo) : Prop := r.wildcards.length = starCount r.key

/-- The positional wildcard-name mismatch relation of the conflict scan: some
position carries differently named wildcards in the two routes. -/
def wildcardMismatch (r other : RouteInfo) : Prop :=
  ∃ (pos : Nat) (a b : WildcardInfo),
    r.wildcards[pos]? = some a ∧ other.wildcards[pos]? = some b ∧ a.name ≠ b.name

theorem mem_enumFrom_iff {α : Type} {l : List α} {j i : Nat} {x : α} :
    (i, x) ∈ l.enumFrom j ↔ j ≤ i ∧ l[i - j]? = some x := by
  induction l generalizing j with
  | nil => simp
  | cons a rest ih =>
    rw [List.enumFrom_cons, List.mem_cons, ih]
    constructor
    · rintro (h | ⟨hle, hget⟩)
      · have h1 : i = j := congrArg Prod.fst h
        have h2 : x = a := congrArg Prod.snd h
        subst h1
        refine ⟨le_refl _, ?_⟩
        rw [Nat.sub_self, h2]
        simp
      · refine ⟨by omega, ?_⟩
        have heq : i - j = (i - (j + 1)) + 1 := by omega
        rw [heq]
        simpa using hget
    · rintro ⟨hle, hget⟩
      by_cases hij : i = j
      · subst hij
        rw [Nat.sub_self] at hget
        have : a = x := by simpa using hget
        exact Or.inl (by rw [this])
      · refine Or.inr ⟨by omega, ?_⟩
        have heq : i - j = (i - (j + 1)) + 1 := by omega
        rw [heq] at hget
        simpa using hget

theorem starCount_le_of_pfx {a b : String} (h : strHasPfx a b = true) :
    starCount b ≤ starCount a := by
  unfold strHasPfx at h
  have hp : b.data <+: a.data := List.isPrefixOf_iff_prefix.mp h
  exact hp.sublist.count_le _

theorem diffPairs_ne_nil_iff {r o : RouteInfo} :
    diffPairs r o ≠ [] ↔ wildcardMismatch r o := by
  unfold diffPairs wildcardMismatch
  rw [Ne, List.filterMap_eq_nil_iff]
  push_neg
  constructor
  · rintro ⟨d, hd, hne⟩
    by_cases hn : d.1.name = d.2.name
    · rw [if_neg (by simpa using hn)] at hne
      exact absurd rfl hne
    · rcases List.mem_iff_getElem.mp hd with ⟨pos, hpos, hget⟩
      have hlen := hpos
      rw [List.length_zip, lt_min_iff] at hlen
      have hz := @List.getElem_zip _ _ r.wildcards o.wildcards pos hpos
      refine ⟨pos, d.1, d.2, ?_, ?_, hn⟩
      · rw [List.getElem?_eq_getElem hlen.1]
        rw [hz] at hget
        rw [← hget]
      · rw [List.getElem?_eq_getElem hlen.2]
        rw [hz] at hget
        rw [← hget]
  · rintro ⟨pos, a, b, ha, hb, hne⟩
    rcases List.getElem?_eq_some.mp ha with ⟨hpa, hga⟩
    rcases List.getElem?_eq_some.mp hb with ⟨hpb, hgb⟩
    have hpz : pos < (r.wildcards.zip o.wildcards).length := by
      rw [List.length_zip, lt_min_iff]
      exact ⟨hpa, hpb⟩
    refine ⟨(a, b), ?_, ?_⟩
    · rw [List.mem_iff_getElem]
      refine ⟨pos, hpz, ?_⟩
      rw [@List.getElem_zip _ _ r.wildcards o.wildcards pos hpz, hga, hgb]
    · rw [if_pos (by simpa using hne)]
      simp

/-- The conflict entries the scan produces for the ordered route pair at
indices (i, j): nothing when the indices coincide or the keys are unrelated by
prefix, and one entry when the prefix-related keys disagree on some wildcard
name. -/
def entryFor (i : Nat) (r : RouteInfo) (j : Nat) (o : RouteInfo) : List RouteConflict :=
  if i = j then []
  else if strHasPfx r.key o.key then
    if (diffPairs r o).isEmpty then []
    else [⟨i, j, conflictMsg r o (diffPairs r o)⟩]
  else []

theorem scanOthers_eq (i : Nat) (r : RouteInfo) (hwfr : routeWF r) :
    ∀ (rem : List RouteInfo) (j : Nat),
      (∀ o ∈ rem, routeWF o) →
      scanOthers i r j rem =
        .ok ((rem.enumFrom j).flatMap (fun jo => entryFor i r jo.1 jo.2)) := by
  intro rem
  induction rem with
  | nil => intro j _; simp [scanOthers]
  | cons o rest ih =>
    intro j hwf
    have hwfo := hwf o (List.mem_cons_self o rest)
    have hrest := fun q hq => hwf q (List.mem_cons_of_mem o hq)
    rw [List.enumFrom_cons, List.flatMap_cons]
    simp only [scanOthers]
    by_cases hij : i = j
    · rw [if_pos hij, ih (j + 1) hrest]
      have he : entryFor i r j o = [] := by unfold entryFor; rw [if_pos hij]
      rw [he, List.nil_append]
    · rw [if_neg hij]
      by_cases hpfx : strHasPfx r.key o.key
      · rw [if_pos hpfx]
        have hlen : o.wildcards.length ≤ r.wildcards.length := by
          rw [hwfo, hwfr]
          exact starCount_le_of_pfx hpfx
        have hdw : DifferentWildcards r o = .ok (diffPairs r o) := by
          unfold DifferentWildcards
          rw [if_pos hlen]
        rw [hdw, ih (j + 1) hrest]
        have he : entryFor i r j o =
            (if (diffPairs r o).isEmpty then []
             else [⟨i, j, conflictMsg r o (diffPairs r o)⟩]) := by
          unfold entryFor
          rw [if_neg hij, if_pos hpfx]
        rw [he]
      · rw [if_neg hpfx, ih (j + 1) hrest]
        have he : entryFor i r j o = [] := by
          unfold entryFor
          rw [if_neg hij, if_neg hpfx]
        rw [he, List.nil_append]

theorem scanRoutes_eq (all : List RouteInfo) (hwfall : ∀ q ∈ all, routeWF q) :
    ∀ (rem : List RouteInfo) (i : Nat),
      (∀ q ∈ rem, routeWF q) →
      scanRoutes all i rem =
        .ok ((rem.enumFrom i).flatMap (fun ir =>
          (all.enumFrom 0).flatMap (fun jo => entryFor ir.1 ir.2 jo.1 jo.2))) := by
  intro rem
  induction rem with
  | nil => intro i _; simp [scanRoutes]
  | cons r rest ih =>
    intro i hwf
    have hwfr := hwf r (List.mem_cons_self r rest)
    have hrest := fun q hq => hwf q (List.mem_cons_of_mem r hq)
    rw [List.enumFrom_cons, List.flatMap_cons]
    simp only [scanRoutes]
    rw [scanOthers_eq i r hwfr all 0 hwfall, ih (i + 1) hrest]

theorem routeConflicts_ok (routes : List RouteInfo) (hwf : ∀ q ∈ routes, routeWF q) :
    routeConflicts routes =
      .ok ((routes.enumFrom 0).flatMap (fun ir =>
        (routes.enumFrom 0).flatMap (fun jo => entryFor ir.1 ir.2 jo.1 jo.2))) := by
  unfold routeConflicts
  exact scanRoutes_eq routes hwf routes 0 hwf

/-- For well-formed route records, a conflict between the ordered pair (i, j)
is reported exactly when route j's key prefixes route i's key and the two
routes disagree on a wildcard name at some shared position. -/
theorem pairConflict_iff (routes : List RouteInfo) (hwf : ∀ q ∈ routes, routeWF q)
    {i j : Nat} {r o : RouteInfo} (hij : i ≠ j)
    (hi : routes[i]? = some r) (hj : routes[j]? = some o) {cs : List RouteConflict}
    (hcs : routeConflicts routes = .ok cs) :
    (∃ c ∈ cs, c.routeIdx = i ∧ c.otherIdx = j) ↔
      strHasPfx r.key o.key = true ∧ wildcardMismatch r o := by
  rw [routeConflicts_ok routes hwf] at hcs
  have hcs2 : cs = (routes.enumFrom 0).flatMap (fun ir =>
      (routes.enumFrom 0).flatMap (fun jo => entryFor ir.1 ir.2 jo.1 jo.2)) := by
    cases hcs
    rfl
  constructor
  · rintro ⟨c, hc, hci, hcj⟩
    rw [hcs2] at hc
    rcases List.mem_flatMap.mp hc with ⟨ir, hir, hc1⟩
    rcases List.mem_flatMap.mp hc1 with ⟨jo, hjo, hc2⟩
    unfold entryFor at hc2
    by_cases h1 : ir.1 = jo.1
    · rw [if_pos h1] at hc2
      cases hc2
    · rw [if_neg h1] at hc2
      by_cases h2 : strHasPfx ir.2.key jo.2.key
      · rw [if_pos h2] at hc2
        by_cases h3 : (diffPairs ir.2 jo.2).isEmpty
        · rw [if_pos h3] at hc2
          cases hc2
        · rw [if_neg h3] at hc2
          rcases List.mem_singleton.mp hc2 with rfl
          have hri : (i, ir.2) ∈ routes.enumFrom 0 := by
            rw [← hci]
            cases ir
            exact hir
          have hrj : (j, jo.2) ∈ routes.enumFrom 0 := by
            rw [← hcj]
            cases jo
            exact hjo
          have hgi := (mem_enumFrom_iff.mp hri).2
          have hgj := (mem_enumFrom_iff.mp hrj).2
          rw [Nat.sub_zero] at hgi hgj
          rw [hi] at hgi
          rw [hj] at hgj
          have hir2 : ir.2 = r := (Option.some.inj hgi).symm
          have hjo2 : jo.2 = o := (Option.some.inj hgj).symm
          rw [hir2, hjo2] at h2 h3
          refine ⟨by simpa using h2, ?_⟩
          rw [← diffPairs_ne_nil_iff]
          intro hnil
          rw [hnil] at h3
          exact h3 rfl
      · rw [if_neg h2] at hc2
        cases hc2
  · rintro ⟨hpfx, hmm⟩
    rw [hcs2]
    refine ⟨⟨i, j, conflictMsg r o (diffPairs r o)⟩, ?_, rfl, rfl⟩
    rw [List.mem_flatMap]
    refine ⟨(i, r), ?_, ?_⟩
    · rw [mem_enumFrom_iff]
      simpa using hi
    · rw [List.mem_flatMap]
      refine ⟨(j, o), ?_, ?_⟩
      · rw [mem_enumFrom_iff]
        simpa using hj
      · unfold entryFor
        rw [if_neg hij, if_pos hpfx]
        have hne : diffPairs r o ≠ [] := diffPairs_ne_nil_iff.mpr hmm
        rw [if_neg (by simpa using hne)]
        exact List.mem_singleton.mpr rfl

/-- A validation step: reads and updates the state, producing the diagnostics
it adds to the shared `*dslengine.ValidationErrors`, a runtime panic, or fuel
exhaustion. -/
def VM := VState → Res (VState × List String)

/-- The step that adds nothing. -/
def vpure : VM := fun s => .ok (s, [])

/-- Sequencing with diagnostic accumulation, mirroring consecutive
`verr.Add` / `verr.Merge` calls; a panic abandons the collected diagnostics
exactly as a Go panic abandons `verr`. -/
def vseq (a b : VM) : VM := fun s =>
  match a s with
  | .ok (s1, e1) =>
    match b s1 with
    | .ok (s2, e2) => .ok (s2, e1 ++ e2)
    | .crash m => .crash m
    | .out => .out
  | .crash m => .crash m
  | .out => .out

/-- Add one diagnostic (`verr.Add`). -/
def vadd (msg : String) : VM := fun s => .ok (s, [msg])

/-- Add one diagnostic when the condition holds. -/
def vaddIf (c : Prop) [Decidable c] (msg : String) : VM := fun s =>
  .ok (s, if c then [msg] else [])

/-- A runtime panic. -/
def vcrash (msg : String) : VM := fun _ => .crash msg

/-- Sequence a list of steps in order. -/
def vseqs : List VM → VM
  | [] => vpure
  | a :: rest => vseq a (vseqs rest)

/-- External collaborators of the validators: `url.ParseRequestURI`,
`mime.ParseMediaType`, the GOPATH existence check behind `os.Stat`, and the
`KnownEncoders` registry together with its sorted key list used in the
diagnostic.  The spec places all of these at the interface boundary, so they
are parameters of the model. -/
structure Ext where
  urlOk : String → Bool
  mimeOk : String → Bool
  pkgPathOk : String → Bool
  knownEncoder : String → Bool
  knownNames : List String

/-- The Go panic message of a nil dereference. -/
def nilDeref : String := "runtime error: invalid memory address or nil pointer dereference"

/-- Embedding of `ResponseDefinition.Validate` (source lines 427-436). -/
def ResponseDefinition.Validate (g : Graph) (fuel : Nat) (r : ResponseDefinition) : VM :=
  vseq
    (match r.headers with
     | some h => fun s => AttributeDefinition.Validate g fuel h "response headers" "response" s
     | none => vpure)
    (vaddIf (r.status = 0) "response: response status not defined")

/-- Embedding of `UserTypeDefinition.Validate` (source lines 449-456). -/
def UserTypeDefinition.Validate (g : Graph) (fuel : Nat) (u : UserTypeDefinition)
    (ctx parent : String) : VM :=
  vseq (vaddIf (u.typeName = "") (parent ++ ": " ++ ctx ++ " - User type must have a name"))
    (fun s => AttributeDefinition.Validate g fuel u.attr ctx parent s)

/-- Embedding of `ViewDefinition.Validate` (source lines 555-562). -/
def ViewDefinition.Validate (g : Graph) (fuel : Nat) (v : ViewDefinition) : VM :=
  vseq (vaddIf (v.hasParent = false) "view: View must have a parent media type")
    (fun s => AttributeDefinition.Validate g fuel v.attr "" "view" s)

/-- `ToObject` of a media type: the object underlying its backing attribute. -/
def mtToObject (g : Graph) (attrs : List AttributeDefinition) (mid : Nat) :
    Option (List (String × Nat)) :=
  match (attrs.getD (g.mediaTypes.getD mid defaultMT).attr defaultAttr).type with
  | some t => toObject g attrs t
  | none => none

/-- Embedding of `LinkDefinition.Validate` (source lines 518-551).  When the
parent media type pointer is nil the source records the diagnostic and then
calls `l.Parent.ToObject()`, dereferencing the nil pointer: a panic. -/
def linkErrs (g : Graph) (attrs : List AttributeDefinition) (l : LinkDefinition)
    (pid : Nat) : List String :=
  let e1 : List String := if l.name = "" then ["link: Links must have a name"] else []
  let pobj := mtToObject g attrs pid
  let e2 : List String :=
    if pobj = none then ["link: Link parent media type must be an Object"] else []
  let e3 : List String :=
    match (pobj.getD []).find? (fun p => p.1 = l.name) with
    | none => ["link: Link name must match one of the parent media type attribute names"]
    | some p =>
      match (attrs.getD p.2 defaultAttr).type with
      | some (.mediaTypeRef tmid) =>
        let tm := g.mediaTypes.getD tmid defaultMT
        if tm.views.any (fun v => v.1 = l.view) then []
        else ["link: view " ++ quoted l.view ++
          " does not exist on target media type " ++ quoted tm.identifier]
      | _ => ["link: attribute type must be a media type"]
  e1 ++ e2 ++ e3

def LinkDefinition.Validate (g : Graph) (l : LinkDefinition) : VM := fun s =>
  match l.parent with
  | none => .crash nilDeref
  | some pid => .ok (s, linkErrs g s.attrs l pid)

/-- Embedding of `EncodingDefinition.Validate` (source lines 257-301): a
missing MIME type list returns immediately; otherwise each MIME type is
parsed, the package path (when given) must exist under some GOPATH, known
encoders are required when it is not given, and a Function requires a
PackagePath. -/
def EncodingDefinition.Validate (ext : Ext) (enc : EncodingDefinition) : VM :=
  if enc.mimeTypes.isEmpty then vadd "encoding: missing MIME type"
  else
    vseq (vseqs (enc.mimeTypes.map (fun m =>
        vaddIf (ext.mimeOk m = false) ("encoding: invalid MIME type " ++ quoted m))))
      (vseq
        (if enc.packagePath ≠ "" then
          vaddIf (ext.pkgPathOk enc.packagePath = false)
            ("encoding: invalid Go package path " ++ quoted enc.packagePath)
        else
          vseqs (enc.mimeTypes.map (fun m =>
            vaddIf (ext.knownEncoder m = false)
              ("encoding: Encoders not known for all MIME types, use Package to " ++
                "specify encoder Go package. MIME types with known encoders are " ++
                String.intercalate ", " ext.knownNames))))
        (vaddIf (enc.function ≠ "" ∧ enc.packagePath = "")
          "encoding: Must specify encoder package page with PackagePath"))

/-- One parameter entry of `ActionDefinition.ValidateParams` (source lines
357-370): the name / nil checks record their diagnostics, and then the
unconditional `p.Type.Kind()` dereferences the type interface — a nil type
panics there, abandoning the diagnostics just recorded.  A nil attribute
pointer (`p == nil`) is not representable in the arena model; it would panic
at the same expression. -/
def paramField (g : Graph) (fuel : Nat) (actx n : String) (pid : Nat) : VM := fun s =>
  let chain : List String :=
    if n = "" then [actx ++ ": action has parameter with no name"]
    else
      match (s.attrs.getD pid defaultAttr).type with
      | none => [actx ++ ": type of parameter " ++ n ++ " cannot be nil"]
      | some _ => []
  match (s.attrs.getD pid defaultAttr).type with
  | none => .crash nilDeref
  | some t =>
    let kindErr : List String :=
      if t.kind = .objectKind then
        [actx ++ ": parameter " ++ n ++
          " cannot be an object, only action payloads may be of type object"]
      else []
    match AttributeDefinition.Validate g fuel pid ("parameter " ++ n) actx s with
    | .ok (s1, e1) => .ok (s1, chain ++ kindErr ++ e1)
    | .crash m => .crash m
    | .out => .out

/-- Embedding of `ActionDefinition.ValidateParams` (source lines 332-375).
The wildcard collection of lines 341-356 is computed but never used afterward
in this version of the source, so the model omits it. -/
def ActionDefinition.ValidateParams (g : Graph) (fuel : Nat) (a : ActionDefinition) :
    VM := fun s =>
  match a.params with
  | none => .ok (s, [])
  | some pid =>
    let actx := "action " ++ a.name
    let pty := (s.attrs.getD pid defaultAttr).type
    let objErr : List String :=
      match pty with
      | some (.object _) => []
      | _ => [actx ++ ": \"Params\" field of action is not an object"]
    let fields : List (String × Nat) :=
      match pty with
      | some (.object fs) => fs
      | _ => []
    match vseq (vseqs (fields.map (fun (p : String × Nat) => paramField g fuel actx p.1 p.2)))
        (vseqs (a.responses.map (fun resp => ResponseDefinition.Validate g fuel resp))) s with
    | .ok (s1, e1) => .ok (s1, objErr ++ e1)
    | .crash m => .crash m
    | .out => .out

/-- Embedding of `ActionDefinition.Validate` (source lines 305-329): name and
route checks, the duplicate-status double loop interleaved with per-response
validation, params and payload validation, and the parent back-pointer check. -/
def ActionDefinition.Validate (g : Graph) (fuel : Nat) (a : ActionDefinition) : VM :=
  vseq (vaddIf (a.name = "") "action: Action name cannot be empty")
  (vseq (vaddIf (a.routes.isEmpty = true) "action: No route defined for action")
  (vseq (vseqs (a.responses.enum.map (fun ir =>
      vseq (fun s => .ok (s, a.responses.enum.filterMap (fun jr =>
          if ir.1 ≠ jr.1 ∧ ir.2.status = jr.2.status then
            some ("response: Multiple response definitions with status code " ++
              toString ir.2.status)
          else none)))
        (ResponseDefinition.Validate g fuel ir.2))))
  (vseq (ActionDefinition.ValidateParams g fuel a)
  (vseq (match a.payload with
         | some pl => fun s =>
             AttributeDefinition.Validate g fuel pl "action payload" ("action " ++ a.name) s
         | none => vpure)
    (vaddIf (a.hasParent = false) "action: missing parent resource")))))

/-- Embedding of `ResourceDefinition.validateActions` (source lines 202-213). -/
def ResourceDefinition.validateActions (g : Graph) (fuel : Nat)
    (r : ResourceDefinition) : VM :=
  vseq (vseqs (r.actions.map (fun a => ActionDefinition.Validate g fuel a)))
    (vaddIf (r.canonicalActionName ≠ "" ∧
        r.actions.any (fun a => a.name = r.canonicalActionName) = false)
      ("resource " ++ r.name ++ ": unknown canonical action " ++
        quoted r.canonicalActionName))

/-- Embedding of `ResourceDefinition.validateBaseParams` (source lines
215-243), including the source's exact variable-list rendering. -/
def ResourceDefinition.validateBaseParams (_g : Graph) (r : ResourceDefinition) :
    VM := fun s =>
  let rctx := "resource " ++ r.name
  match r.baseParams with
  | none => .ok (s, [])
  | some bid =>
    match (s.attrs.getD bid defaultAttr).type with
    | some (.object baseParams) =>
      let vars := ExtractWildcards r.basePath
      if vars.isEmpty then
        .ok (s,
          if baseParams.length > 0 then
            [rctx ++ ": BasePath does not use variables defined in BaseParams"]
          else [])
      else
        let lenErr : List String :=
          if vars.length ≠ baseParams.length then
            [rctx ++ ": BasePath defines parameters " ++
              String.intercalate " and "
                [String.intercalate ", " vars.dropLast, vars.getLastD ""] ++
              " but BaseParams has " ++ toString baseParams.length ++ " elements"]
          else []
        let varErrs := vars.filterMap (fun v =>
          if baseParams.any (fun p => p.1 = v) then none
          else some (rctx ++ ": Variable " ++ v ++ " from base path " ++
            pathRender r.basePath ++ " does not match any parameter from BaseParams"))
        .ok (s, lenErr ++ varErrs)
    | _ => .ok (s, [rctx ++ ": invalid type for BaseParams, must be an Object"])

/-- Embedding of `CanonicalAction`.  Modelled from the spec (the method is not
among the staged files): the canonical action name defaults to "show" and must
resolve to one of the resource's actions. -/
def ResourceDefinition.CanonicalAction (r : ResourceDefinition) : Option ActionDefinition :=
  r.actions.find? (fun a =>
    a.name = (if r.canonicalActionName = "" then "show" else r.canonicalActionName))

/-- Embedding of `ResourceDefinition.validateParent` (source lines 245-254),
with the API's resource table standing for the global `Design.Resources`. -/
def ResourceDefinition.validateParent (api : APIDefinition) (r : ResourceDefinition) :
    VM := fun s =>
  let rctx := "resource " ++ r.name
  match api.resources.find? (fun p => p.name = r.parentName) with
  | none =>
    .ok (s, [rctx ++ ": Parent resource named " ++ quoted r.parentName ++ " not found"])
  | some p =>
    match p.CanonicalAction with
    | none =>
      .ok (s, [rctx ++ ": Parent resource " ++ quoted r.parentName ++
        " has no canonical action"])
    | some _ => .ok (s, [])

/-- Embedding of `ResourceDefinition.Validate` (source lines 181-200). -/
def ResourceDefinition.Validate (g : Graph) (api : APIDefinition) (fuel : Nat)
    (r : ResourceDefinition) : VM :=
  vseq (vaddIf (r.name = "") "resource: Resource name cannot be empty")
  (vseq (ResourceDefinition.validateActions g fuel r)
  (vseq (if r.baseParams.isSome then ResourceDefinition.validateBaseParams g r else vpure)
  (vseq (if r.parentName ≠ "" then ResourceDefinition.validateParent api r else vpure)
  (vseq (vseqs (r.responses.map (fun resp => ResponseDefinition.Validate g fuel resp)))
    (match r.params with
     | some pid => fun s =>
         AttributeDefinition.Validate g fuel pid "resource parameters"
           ("resource " ++ r.name) s
     | none => vpure)))))

/-- Write `String` into the backing attribute of a media type (the
`m.Type = String` assignment of source line 464): visible through the arena to
every later reader of the attribute. -/
def setAttrType (s : VState) (id : Nat) (t : DataType) : VState :=
  { s with attrs := s.attrs.set id { s.attrs.getD id defaultAttr with type := some t } }

/-- Rendered `Context()` of a media type, used as the diagnostic location. -/
def mtContext (mid : Nat) : String := "media type " ++ toString mid

/-- Diagnostic name of a data type (design's `Name()`).  Modelled from the
spec, as for `Codegen.TType.name`; a media type renders by its type name. -/
def dtName (g : Graph) : DataType → String
  | .primitive k => primName k
  | .object _ => "object"
  | .array _ => "array"
  | .hash _ _ => "hash"
  | .mediaTypeRef mid => (g.mediaTypes.getD mid defaultMT).typeName

/-- The array-or-object phase of `MediaTypeDefinition.Validate` (source lines
466-483): for an array shape the element attribute is validated and, only when
that produced no diagnostics, required to be a media type (whose object
becomes the attribute loop's object); otherwise the media type's own object is
used.  A nil element type where the source calls `Name()` would panic; in the
model the element attribute always exists, and a nil element *type* panics
exactly where the source calls `a.ElemType.Type.Name()` on the nil
interface. -/
def mtShape (g : Graph) (fuel : Nat) (mctx : String) (ty : DataType) :
    VState → Res (VState × (List String × Option (List (String × Nat)))) := fun s =>
  match toArrayElem g s.attrs ty with
  | some elemId =>
    match AttributeDefinition.Validate g fuel elemId "array element" mctx s with
    | .crash e => .crash e
    | .out => .out
    | .ok (s1, errs) =>
      if errs.isEmpty then
        match (s1.attrs.getD elemId defaultAttr).type with
        | some (.mediaTypeRef emid) =>
          .ok (s1, ([], toObject g s1.attrs (.mediaTypeRef emid)))
        | some t2 =>
          .ok (s1, ([mctx ++ ": collection media type array element type must be " ++
            "a media type, got " ++ dtName g t2], none))
        | none => .crash nilDeref
      else .ok (s1, (errs, none))
  | none => .ok (s, ([], toObject g s.attrs ty))

/-- One attribute of the media type's object (source lines 485-496): validate
it, and when it declares a view, assert its type is a media type and look the
view up.  When the assertion fails the source records the diagnostic and then
reads `cmt.Views` through the nil `*MediaTypeDefinition`: a panic. -/
def mtAttrCheck (g : Graph) (fuel : Nat) (mctx n : String) (attId : Nat) : VM := fun s =>
  match AttributeDefinition.Validate g fuel attId ("attribute " ++ n) mctx s with
  | .crash e => .crash e
  | .out => .out
  | .ok (s1, e1) =>
    let att := s1.attrs.getD attId defaultAttr
    if att.view ≠ "" then
      match att.type with
      | some (.mediaTypeRef cmid) =>
        let cmt := g.mediaTypes.getD cmid defaultMT
        if cmt.views.any (fun v => v.1 = att.view) then .ok (s1, e1)
        else
          .ok (s1, e1 ++ [mctx ++ ": attribute " ++ n ++
            " of media type uses unknown view " ++ quoted att.view])
      | _ => .crash nilDeref
    else .ok (s1, e1)

/-- The view phase of `MediaTypeDefinition.Validate` (source lines 498-509):
validate every view and require one named "default". -/
def mtViewsPhase (g : Graph) (fuel : Nat) (mid : Nat) : VM :=
  vseq (vseqs ((g.mediaTypes.getD mid defaultMT).views.map
      (fun v => ViewDefinition.Validate g fuel v.2)))
    (vaddIf ((g.mediaTypes.getD mid defaultMT).views.any (fun v => v.1 = "default") = false)
      (mtContext mid ++ ": media type does not define the default view, use " ++
        "View(\"default\", ...) to define it."))

/-- The part of `MediaTypeDefinition.Validate` after the embedded user type
has been validated and a nil `Type` replaced by `String` (source lines
466-513): the shape phase, the attribute/view-reference loop, the default-view
phase for non-arrays, and the links. -/
def mtTail (g : Graph) (fuel : Nat) (mid : Nat) : VM := fun s2 =>
  let m := g.mediaTypes.getD mid defaultMT
  let mctx := mtContext mid
  let ty := ((s2.attrs.getD m.attr defaultAttr).type).getD (.primitive .str)
  match mtShape g fuel mctx ty s2 with
  | .crash e => .crash e
  | .out => .out
  | .ok (s3, (e2, obj)) =>
    match (match obj with
           | some fields => vseqs (fields.map
               (fun (p : String × Nat) => mtAttrCheck g fuel mctx p.1 p.2))
           | none => vpure) s3 with
    | .crash e => .crash e
    | .out => .out
    | .ok (s4, e3) =>
      match (vseq
          (if (toArrayElem g s4.attrs ty).isSome then vpure else mtViewsPhase g fuel mid)
          (vseqs (m.links.map (fun l => LinkDefinition.Validate g l)))) s4 with
      | .crash e => .crash e
      | .out => .out
      | .ok (s5, e4) => .ok (s5, e2 ++ e3 ++ e4)

/-- Embedding of `MediaTypeDefinition.Validate` (source lines 460-514): the
embedded user type is validated first (which reports a nil type), then a nil
`Type` is replaced by `String` in place, then the shape phase, the
attribute/view-reference loop, the default-view phase for non-arrays, and the
links. -/
def MediaTypeDefinition.Validate (g : Graph) (fuel : Nat) (mid : Nat) : VM := fun s =>
  let m := g.mediaTypes.getD mid defaultMT
  match UserTypeDefinition.Validate g fuel ⟨m.typeName, m.attr⟩ "" (mtContext mid) s with
  | .crash e => .crash e
  | .out => .out
  | .ok (s1, e1) =>
    let s2 := if (s1.attrs.getD m.attr defaultAttr).type = none then
        setAttrType s1 m.attr (.primitive .str)
      else s1
    match mtTail g fuel mid s2 with
    | .crash e => .crash e
    | .out => .out
    | .ok (s5, e2) => .ok (s5, e1 ++ e2)

/-- The route records `APIDefinition.Validate` collects while iterating
resources, actions and routes (source lines 84-86). -/
def collectRoutes (api : APIDefinition) : List RouteInfo :=
  api.resources.flatMap (fun r =>
    r.actions.flatMap (fun ac =>
      ac.routes.map (fun ro => newRouteInfo r ac ro)))

/-- The duplicate-wildcard check of one route (source lines 87-96): a wildcard
name shared between the action's resource base path (`ac.Parent.FullPath()`,
which panics when the parent pointer is nil) and the route's own path is
reported. -/
def routeDupChecks (r : ResourceDefinition) (ac : ActionDefinition)
    (ro : RouteDefinition) : VM :=
  if ac.hasParent = false then vcrash nilDeref
  else fun s =>
    .ok (s, (ExtractWildcards r.basePath).flatMap (fun rwc =>
      (ExtractWildcards ro.path).filterMap (fun wc =>
        if rwc = wc then
          some ("action " ++ ac.name ++ ": duplicate wildcard " ++ quoted wc ++
            " in resource base path " ++ quoted (pathRender r.basePath) ++
            " and action route " ++ quoted (pathRender ro.path))
        else none)))

/-- The per-resource phase of `APIDefinition.Validate` (source lines 76-101):
each resource is validated, then each of its actions has its docs URL checked
and its routes checked for duplicate wildcards (the scan's route records are
collected separately by `collectRoutes`, in the same order). -/
def apiResourcePhase (g : Graph) (api : APIDefinition) (ext : Ext) (fuel : Nat) : VM :=
  vseqs (api.resources.map (fun r =>
    vseq (ResourceDefinition.Validate g api fuel r)
      (vseqs (r.actions.map (fun ac =>
        vseq
          (match ac.docs with
           | some d =>
             vaddIf (d.url ≠ "" ∧ ext.urlOk d.url = false)
               ("action " ++ ac.name ++ ": invalid action docs URL value")
           | none => vpure)
          (vseqs (ac.routes.map (fun ro => routeDupChecks r ac ro))))))))

/-- The route-conflict phase of `APIDefinition.Validate` (source lines
102-127). -/
def apiConflictPhase (api : APIDefinition) : VM := fun s =>
  match routeConflicts (collectRoutes api) with
  | .ok cs => .ok (s, cs.map (fun c => c.msg))
  | .crash m => .crash m
  | .out => .out

/-- The base-parameter phase of `APIDefinition.Validate` (source lines 66-70). -/
def apiBaseParamsPhase (g : Graph) (api : APIDefinition) (fuel : Nat) : VM :=
  match api.baseParams with
  | some bp => fun s => AttributeDefinition.Validate g fuel bp "base parameters" "api" s
  | none => vpure

/-- The contact-URL check of `APIDefinition.Validate` (source lines 71-73). -/
def apiContactPhase (ext : Ext) (api : APIDefinition) : VM :=
  vaddIf (api.contact.getD "" ≠ "" ∧ ext.urlOk (api.contact.getD "") = false)
    "api: invalid contact URL value"

/-- The license-URL check of `APIDefinition.Validate` (source lines 74-76). -/
def apiLicensePhase (ext : Ext) (api : APIDefinition) : VM :=
  vaddIf (api.license.getD "" ≠ "" ∧ ext.urlOk (api.license.getD "") = false)
    "api: invalid license URL value"

/-- The docs-URL check of `APIDefinition.Validate` (source lines 77-79). -/
def apiDocsPhase (ext : Ext) (api : APIDefinition) : VM :=
  vaddIf (api.docs.getD "" ≠ "" ∧ ext.urlOk (api.docs.getD "") = false)
    "api: invalid docs URL value"

/-- The media-type phase of `APIDefinition.Validate` (source lines 128-134). -/
def apiMediaTypesPhase (g : Graph) (fuel : Nat) : VM :=
  vseqs ((List.range g.mediaTypes.length).map
    (fun mid => MediaTypeDefinition.Validate g fuel mid))

/-- The user-type phase of `APIDefinition.Validate` (source lines 135-137). -/
def apiUserTypesPhase (g : Graph) (api : APIDefinition) (fuel : Nat) : VM :=
  vseqs (api.userTypes.map (fun u => UserTypeDefinition.Validate g fuel u "" "api"))

/-- The response phase of `APIDefinition.Validate` (source lines 138-140). -/
def apiResponsesPhase (g : Graph) (api : APIDefinition) (fuel : Nat) : VM :=
  vseqs (api.responses.map (fun resp => ResponseDefinition.Validate g fuel resp))

/-- The consume-encoding phase of `APIDefinition.Validate` (source lines 141-143). -/
def apiConsumesPhase (ext : Ext) (api : APIDefinition) : VM :=
  vseqs (api.consumes.map (fun enc => EncodingDefinition.Validate ext enc))

/-- The produce-encoding phase of `APIDefinition.Validate` (source lines 144-146). -/
def apiProducesPhase (ext : Ext) (api : APIDefinition) : VM :=
  vseqs (api.produces.map (fun enc => EncodingDefinition.Validate ext enc))

/-- Embedding of `APIDefinition.Validate` (source lines 65-153), as the
sequential composition of every phase in source order: base parameters,
contact/license/docs URLs, resources (with their actions and routes), the
route-conflict scan, media types, user types, responses, and the consume and
produce encodings. -/
def APIDefinition.Validate (g : Graph) (ext : Ext) (api : APIDefinition) (fuel : Nat) :
    VM :=
  vseq (apiBaseParamsPhase g api fuel)
  (vseq (apiContactPhase ext api)
  (vseq (apiLicensePhase ext api)
  (vseq (apiDocsPhase ext api)
  (vseq (apiResourcePhase g api ext fuel)
  (vseq (apiConflictPhase api)
  (vseq (apiMediaTypesPhase g fuel)
  (vseq (apiUserTypesPhase g api fuel)
  (vseq (apiResponsesPhase g api fuel)
  (vseq (apiConsumesPhase ext api)
        (apiProducesPhase ext api))))))))))

/-- Inversion of a completed `vseq`: both steps completed, in sequence, and
the diagnostics are the concatenation. -/
theorem vseq_ok {a b : VM} {s s2 : VState} {e : List String}
    (h : vseq a b s = .ok (s2, e)) :
    ∃ s1 e1 e2, a s = .ok (s1, e1) ∧ b s1 = .ok (s2, e2) ∧ e = e1 ++ e2 := by
  unfold vseq at h
  split at h
  next s1 e1 ha =>
    split at h
    next s2' e2 hb =>
      cases h
      exact ⟨s1, e1, e2, ha, hb, rfl⟩
    next m hb => cases h
    next hb => cases h
  next m ha => cases h
  next ha => cases h

/-- A validation step that, on completion, leaves the arena unchanged and only
grows the marker map. -/
def VMmono (v : VM) : Prop :=
  ∀ s s' e, v s = .ok (s', e) → s'.attrs = s.attrs ∧ s.validated ⊆ s'.validated

theorem vmmono_pure : VMmono vpure := by
  intro s s' e h
  cases h
  exact ⟨rfl, Finset.Subset.refl _⟩

theorem vmmono_add (msg : String) : VMmono (vadd msg) := by
  intro s s' e h
  cases h
  exact ⟨rfl, Finset.Subset.refl _⟩

theorem vmmono_addIf (c : Prop) [Decidable c] (msg : String) : VMmono (vaddIf c msg) := by
  intro s s' e h
  cases h
  exact ⟨rfl, Finset.Subset.refl _⟩

theorem vmmono_seq {a b : VM} (ha : VMmono a) (hb : VMmono b) : VMmono (vseq a b) := by
  intro s s' e h
  rcases vseq_ok h with ⟨s1, e1, e2, h1, h2, rfl⟩
  have m1 := ha s s1 e1 h1
  have m2 := hb s1 s' e2 h2
  exact ⟨m2.1.trans m1.1, m1.2.trans m2.2⟩

theorem vmmono_seqs {l : List VM} (hl : ∀ v ∈ l, VMmono v) : VMmono (vseqs l) := by
  induction l with
  | nil => exact vmmono_pure
  | cons v rest ih =>
    exact vmmono_seq (hl v (List.mem_cons_self v rest))
      (ih (fun w hw => hl w (List.mem_cons_of_mem v hw)))

theorem vmmono_attr (g : Graph) (fuel id : Nat) (ctx parent : String) :
    VMmono (fun s => AttributeDefinition.Validate g fuel id ctx parent s) := by
  intro s s' e h
  have hm := Validate_mono g fuel id ctx parent s s' e h
  exact ⟨hm.1, hm.2.1⟩

theorem vmmono_userType (g : Graph) (fuel : Nat) (u : UserTypeDefinition)
    (ctx parent : String) : VMmono (UserTypeDefinition.Validate g fuel u ctx parent) :=
  vmmono_seq (vmmono_addIf _ _) (vmmono_attr g fuel u.attr ctx parent)

theorem vmmono_view (g : Graph) (fuel : Nat) (v : ViewDefinition) :
    VMmono (ViewDefinition.Validate g fuel v) :=
  vmmono_seq (vmmono_addIf _ _) (vmmono_attr g fuel v.attr "" "view")

theorem vmmono_link (g : Graph) (l : LinkDefinition) :
    VMmono (LinkDefinition.Validate g l) := by
  intro s s' e h
  unfold LinkDefinition.Validate at h
  split at h
  next => cases h
  next pid => cases h; exact ⟨rfl, Finset.Subset.refl _⟩

theorem vmmono_viewsPhase (g : Graph) (fuel mid : Nat) :
    VMmono (mtViewsPhase g fuel mid) := by
  apply vmmono_seq
  · apply vmmono_seqs
    intro v hv
    rcases List.mem_map.mp hv with ⟨w, _, rfl⟩
    exact vmmono_view g fuel w.2
  · exact vmmono_addIf _ _

/-- Reading back the slot just written by `setAttrType`. -/
theorem setAttrType_getD (s : VState) (id : Nat) (t : DataType)
    (h : id < s.attrs.length) :
    ((setAttrType s id t).attrs.getD id defaultAttr).type = some t := by
  unfold setAttrType
  rw [List.getD_eq_getElem?_getD, List.getElem?_set_self h]
  rfl

theorem vmmono_ite (c : Prop) [Decidable c] {a b : VM} (ha : VMmono a) (hb : VMmono b) :
    VMmono (if c then a else b) := by
  split
  · exact ha
  · exact hb

/-- The shape phase leaves the arena unchanged and only grows the marker map. -/
theorem mtShape_mono (g : Graph) (fuel : Nat) (mctx : String) (ty : DataType)
    {s s' : VState} {p : List String × Option (List (String × Nat))}
    (h : mtShape g fuel mctx ty s = .ok (s', p)) :
    s'.attrs = s.attrs ∧ s.validated ⊆ s'.validated := by
  unfold mtShape at h
  split at h
  next elemId har =>
    split at h
    next e hv => cases h
    next hv => cases h
    next s1 errs hv =>
      have hm := Validate_mono g fuel elemId "array element" mctx s s1 errs hv
      repeat' split at h
      all_goals first | (cases h; exact ⟨hm.1, hm.2.1⟩) | cases h
  next har =>
    cases h
    exact ⟨rfl, subset_refl _⟩

theorem vmmono_mtAttrCheck (g : Graph) (fuel : Nat) (mctx n : String) (attId : Nat) :
    VMmono (mtAttrCheck g fuel mctx n attId) := by
  intro s s' e h
  unfold mtAttrCheck at h
  cases hv : AttributeDefinition.Validate g fuel attId ("attribute " ++ n) mctx s with
  | crash m => rw [hv] at h; cases h
  | out => rw [hv] at h; cases h
  | ok pr =>
    obtain ⟨s1, e1⟩ := pr
    rw [hv] at h
    simp only at h
    have hm := Validate_mono g fuel attId ("attribute " ++ n) mctx s s1 e1 hv
    by_cases hw : (s1.attrs.getD attId defaultAttr).view ≠ ""
    · rw [if_pos hw] at h
      cases hty : (s1.attrs.getD attId defaultAttr).type with
      | none => rw [hty] at h; cases h
      | some t =>
        cases t with
        | primitive k => rw [hty] at h; cases h
        | object fs => rw [hty] at h; cases h
        | array el => rw [hty] at h; cases h
        | hash k el => rw [hty] at h; cases h
        | mediaTypeRef cmid =>
          rw [hty] at h
          simp only at h
          split at h
          · cases h; exact ⟨hm.1, hm.2.1⟩
          · cases h; exact ⟨hm.1, hm.2.1⟩
    · rw [if_neg hw] at h
      cases h
      exact ⟨hm.1, hm.2.1⟩

/-- Everything `MediaTypeDefinition.Validate` runs after the `m.Type = String`
write leaves the arena unchanged and only grows the marker map. -/
theorem vmmono_mtTail (g : Graph) (fuel mid : Nat) : VMmono (mtTail g fuel mid) := by
  intro s s' e h
  unfold mtTail at h
  simp only at h
  cases hsh : mtShape g fuel (mtContext mid)
      (((s.attrs.getD (g.mediaTypes.getD mid defaultMT).attr defaultAttr).type).getD
        (.primitive .str)) s with
  | crash m => rw [hsh] at h; cases h
  | out => rw [hsh] at h; cases h
  | ok pr =>
    obtain ⟨s3, e2, obj⟩ := pr
    rw [hsh] at h
    simp only at h
    have hm1 := mtShape_mono g fuel (mtContext mid)
      (((s.attrs.getD (g.mediaTypes.getD mid defaultMT).attr defaultAttr).type).getD
        (.primitive .str)) hsh
    cases hlp : (match obj with
        | some fields => vseqs (fields.map
            (fun (p : String × Nat) => mtAttrCheck g fuel (mtContext mid) p.1 p.2))
        | none => vpure) s3 with
    | crash m => rw [hlp] at h; cases h
    | out => rw [hlp] at h; cases h
    | ok pr2 =>
      obtain ⟨s4, e3⟩ := pr2
      rw [hlp] at h
      simp only at h
      have hm2 : s4.attrs = s3.attrs ∧ s3.validated ⊆ s4.validated := by
        cases obj with
        | none =>
          cases hlp
          exact ⟨rfl, subset_refl _⟩
        | some fields =>
          refine vmmono_seqs ?_ s3 s4 e3 hlp
          intro v hv
          rcases List.mem_map.mp hv with ⟨q, _, rfl⟩
          exact vmmono_mtAttrCheck g fuel (mtContext mid) q.1 q.2
      cases hv : vseq
          (if (toArrayElem g s4.attrs
              (((s.attrs.getD (g.mediaTypes.getD mid defaultMT).attr defaultAttr).type).getD
                (.primitive .str))).isSome
            then vpure else mtViewsPhase g fuel mid)
          (vseqs ((g.mediaTypes.getD mid defaultMT).links.map
            (fun l => LinkDefinition.Validate g l))) s4 with
      | crash m => rw [hv] at h; cases h
      | out => rw [hv] at h; cases h
      | ok pr3 =>
        obtain ⟨s5, e4⟩ := pr3
        rw [hv] at h
        simp only at h
        have hm3 := vmmono_seq (vmmono_ite _ vmmono_pure (vmmono_viewsPhase g fuel mid))
          (vmmono_seqs (fun v hv2 => by
            rcases List.mem_map.mp hv2 with ⟨l, _, rfl⟩
            exact vmmono_link g l)) s4 s5 e4 hv
        cases h
        exact ⟨hm3.1.trans (hm2.1.trans hm1.1), (hm1.2.trans hm2.2).trans hm3.2⟩

/-- The top of `APIDefinition.Validate` (source lines 147-152): run all checks
and return nil — `none` — exactly when no diagnostic was produced
(`verr.AsError`, with the nil-interface comparison handled so that an empty
aggregate becomes a true nil). -/
def APIDefinition.ValidateTop (g : Graph) (ext : Ext) (api : APIDefinition) (fuel : Nat)
    (s : VState) : Res (VState × Option (List String)) :=
  match APIDefinition.Validate g ext api fuel s with
  | .ok (s', errs) => .ok (s', if errs.isEmpty then none else some errs)
  | .crash m => .crash m
  | .out => .out

end Design

end Goa

namespace Goa

namespace Codegen

/-- A field with the given name and type and no metadata. -/
def fld (n : String) (t : TType) : TField := .mk n (.mk t [])

/-- A field whose `transform:key` metadata holds the one alias `a`. -/
def fldAlias (n : String) (t : TType) (a : String) : TField :=
  .mk n (.mk t [(TransformMapKey, [a])])

/-- The error `GoTypeTransform` produces for source `{ count: integer }` and
target `{ count: string }`: both paths render as `<ctx>.object`, not
`<ctx>.count`. -/
def countMismatchMsg : String :=
  "incompatible attribute types: source.object is of type integer " ++
    "but target.object is of type string"

/-- C9: `computeMapping` fails — returns an error and no mapping — exactly when
some field of the source or the target object declares the `transform:key`
mapping metadata with an empty value list; otherwise it succeeds. -/
theorem C9_computeMapping_error_characterization (source target : List TField)
    (sctx tctx : String) :
    (∃ e, computeMapping source target sctx tctx = .error e) ↔
      ((∃ f ∈ source, lookupMeta f.attr.metadata TransformMapKey = some []) ∨
        (∃ f ∈ target, lookupMeta f.attr.metadata TransformMapKey = some [])) :=
  computeMapping_error_iff source target sctx tctx

/-- C5 (amended): when no two source fields share a name, and no two fields of
either object share a match key, a successful `computeMapping` run maps a
source field to a target field exactly when their match keys (the
`transform:key` alias when present, else the field's own name) are equal;
without the uniqueness hypotheses the Go map building silently overwrites
duplicate match keys, dropping fields (see the counterexample). -/
theorem C5_match_key_mapping (source target : List TField) (sctx tctx : String)
    (m : List (String × String))
    (hsn : (source.map TField.name).Nodup)
    (hsk : (source.map matchKey).Nodup)
    (htk : (target.map matchKey).Nodup)
    (hok : computeMapping source target sctx tctx = .ok m) (a b : String) :
    (a, b) ∈ m ↔ ∃ sf ∈ source, ∃ tf ∈ target,
      sf.name = a ∧ tf.name = b ∧ matchKey sf = matchKey tf :=
  computeMapping_mem_iff source target sctx tctx m hsn hsk htk hok a b

/-- C5 witness: the spec's own example — source `{ id: string (alias uid) }`
against target `{ uid: string }` maps `id → uid`, and against
`{ identifier: string }` maps nothing. -/
theorem C5_match_key_mapping_witness :
    (([fldAlias "id" (.primitive .str) "uid"].map TField.name).Nodup ∧
      ([fldAlias "id" (.primitive .str) "uid"].map matchKey).Nodup ∧
      ([fld "uid" (.primitive .str)].map matchKey).Nodup ∧
      computeMapping [fldAlias "id" (.primitive .str) "uid"] [fld "uid" (.primitive .str)]
        "source" "target" = .ok [("id", "uid")]) ∧
    ((("id", "uid") ∈ [("id", "uid")]) ↔
      ∃ sf ∈ [fldAlias "id" (.primitive .str) "uid"], ∃ tf ∈ [fld "uid" (.primitive .str)],
        sf.name = "id" ∧ tf.name = "uid" ∧ matchKey sf = matchKey tf) ∧
    computeMapping [fldAlias "id" (.primitive .str) "uid"]
      [fld "identifier" (.primitive .str)] "source" "target" = .ok [] :=
  ⟨⟨by decide, by decide, by decide, rfl⟩,
    C5_match_key_mapping [fldAlias "id" (.primitive .str) "uid"]
      [fld "uid" (.primitive .str)] "source" "target" [("id", "uid")]
      (by decide) (by decide) (by decide) rfl "id" "uid",
    rfl⟩

/-- C5 counterexample: two source fields alias the same match key `k`; the
first one (`a`) has a match key equal to the target field's, yet the produced
mapping holds only the later field `b` — the earlier entry was silently
overwritten in the Go map. -/
theorem C5_duplicate_key_counterexample :
    computeMapping [fldAlias "a" (.primitive .str) "k", fldAlias "b" (.primitive .str) "k"]
        [fld "k" (.primitive .str)] "source" "target" = .ok [("b", "k")] ∧
    matchKey (fldAlias "a" (.primitive .str) "k") = matchKey (fld "k" (.primitive .str)) ∧
    ("a", "k") ∉ [("b", "k")] :=
  ⟨rfl, rfl, by decide⟩

/-- C4: a top-level shape mismatch (object vs array) is a returned, terminal
error with no plan, but a kind mismatch on a matched field pair of a *nested*
object is hit inside the recursive template rendering, whose error handler
panics (`template.Must`-style), so the caller gets a panic instead of the
explanatory error value. -/
theorem C4_shape_incompatibility :
    GoTypeTransform 8 ⟨"S", .object [fld "a" (.primitive .str)]⟩
        ⟨"T", .array (.mk (.primitive .str) [])⟩ "" "f" =
      .fail "source is an object but target type is array" ∧
    GoTypeTransform 8
        ⟨"S", .object [fld "a" (.object [fld "b" (.primitive .integer)])]⟩
        ⟨"T", .object [fld "a" (.object [fld "b" (.primitive .str)])]⟩ "" "f" =
      .crash ("incompatible attribute types: source.A.object is of type integer " ++
        "but target.A.object is of type string") :=
  ⟨rfl, rfl⟩

set_option maxRecDepth 8192 in
/-- C8: for source `{ count: integer }` and target `{ count: string }` the
compiler fails with a kind-mismatch error, but the error renders both paths
with the object's own `Name()` — the literal word "object" — and the field
name `count` appears nowhere in it. -/
theorem C8_kind_mismatch_message :
    GoTypeTransform 8 ⟨"S", .object [fld "count" (.primitive .integer)]⟩
        ⟨"T", .object [fld "count" (.primitive .str)]⟩ "" "f" = .fail countMismatchMsg ∧
    Design.strContains countMismatchMsg "count" = false :=
  ⟨rfl, by decide⟩

end Codegen

namespace Design

/-- The empty design graph. -/
def emptyG : Graph := {}

/-- The widgets resource of the spec's route-conflict example. -/
def rWidgets : ResourceDefinition := { name := "widgets", basePath := [.lit "/widgets"] }

def acShow : ActionDefinition := { name := "show" }

def acList : ActionDefinition := { name := "list" }

def acItems : ActionDefinition := { name := "items" }

/-- Route `/widgets/:id`: key `/widgets/*`, wildcard `id`. -/
def riShow : RouteInfo := newRouteInfo rWidgets acShow { path := [.wc "id"] }

/-- A second route with the same path and the same wildcard name (intentional
route aliasing). -/
def riShowDup : RouteInfo := newRouteInfo rWidgets acList { path := [.wc "id"] }

/-- Route `/widgets/:id/items`: key `/widgets/*/items`, wildcard `id`. -/
def riItemsSame : RouteInfo :=
  newRouteInfo rWidgets acItems { path := [.wc "id", .lit "/items"] }

/-- Route `/widgets/:widgetId/items`: key `/widgets/*/items`, wildcard
`widgetId`. -/
def riItemsDiff : RouteInfo :=
  newRouteInfo rWidgets acItems { path := [.wc "widgetId", .lit "/items"] }

/-- A route whose key is prefix-unrelated to the widgets routes. -/
def riAccounts : RouteInfo :=
  newRouteInfo { name := "accounts", basePath := [.lit "/accounts"] } acShow
    { path := [.wc "accountId"] }

/-- The one conflict diagnostic of the spec's widgets example, naming both
wildcard names and their origins. -/
def widgetsConflictMsg : String :=
  "route \"/widgets/:widgetId/items\" conflicts with route \"/widgets/:id\" of widgets " ++
    "action show. Make sure wildcards at the same positions have the same name. " ++
    "Conflicting wildcards are \"widgetId\" from route /:widgetId/items and " ++
    "\"id\" from route /:id."

set_option maxRecDepth 8192 in
/-- C3: for well-formed route records a conflict between the ordered pair
(i, j) is reported exactly when route j's key is a string prefix of route i's
key and the two disagree on a wildcard name at some shared position; in the
spec's example, `/widgets/*` (id) against `/widgets/*/items` conflicts exactly
when the second uses `widgetId`, with the one diagnostic naming both wildcards
and their origins; duplicate keys with identical wildcard names and
prefix-unrelated keys produce no conflict. -/
theorem C3_route_conflict_characterization :
    (∀ (routes : List RouteInfo), (∀ q ∈ routes, routeWF q) →
      ∀ (i j : Nat) (r o : RouteInfo) (cs : List RouteConflict), i ≠ j →
        routes[i]? = some r → routes[j]? = some o →
        routeConflicts routes = .ok cs →
        ((∃ c ∈ cs, c.routeIdx = i ∧ c.otherIdx = j) ↔
          (strHasPfx r.key o.key = true ∧ wildcardMismatch r o))) ∧
    routeConflicts [riShow, riItemsSame] = .ok [] ∧
    routeConflicts [riShow, riItemsDiff] = .ok [⟨1, 0, widgetsConflictMsg⟩] ∧
    routeConflicts [riShow, riShowDup] = .ok [] ∧
    routeConflicts [riShow, riAccounts] = .ok [] := by
  refine ⟨?_, rfl, rfl, rfl, rfl⟩
  intro routes hwf i j r o cs hij hi hj hcs
  exact pairConflict_iff routes hwf hij hi hj hcs

/-- C1 (amended): at the fuel bound `validateFuelBound` a validation call never
exhausts its fuel (the recursion terminates on every attribute graph, cyclic
ones included), and an attribute already in the `validated` marker map is
skipped with no diagnostics and no state change — the marker map is
process-wide and is never reset between passes, so a later pass over the state
a first pass returned re-validates nothing. -/
theorem C1_validated_marker_termination (g : Graph) (s : VState) (id : Nat)
    (ctx parent : String) :
    AttributeDefinition.Validate g (validateFuelBound s.attrs) id ctx parent s ≠ .out ∧
    (id ∈ s.validated →
      AttributeDefinition.Validate g (validateFuelBound s.attrs) id ctx parent s =
        .ok (s, [])) := by
  constructor
  · apply Validate_no_out
    refine Or.inr ?_
    unfold validateFuelBound
    exact Nat.lt_succ_of_le (Finset.card_le_card Finset.sdiff_subset)
  · intro hm
    exact Validate_skip g _ id ctx parent s hm

/-- The two-attribute arena of the C1 counterexample: an object attribute whose
field `child` has a nil type. -/
def c1Attrs : List AttributeDefinition := [{ type := some (.object [("child", 1)]) }, {}]

/-- C1 counterexample: the first pass over the arena reports the nil type of
the `child` attribute; a second, independent pass started from the state the
first returned reports nothing and validates nothing, because the marker map
survived the pass boundary. -/
theorem C1_second_pass_skips_counterexample :
    AttributeDefinition.Validate emptyG 2 0 "" "api" ⟨c1Attrs, ∅⟩ =
      .ok (⟨c1Attrs, insert 1 (insert 0 ∅)⟩, ["attribute 0: attribute type is nil"]) ∧
    AttributeDefinition.Validate emptyG 2 0 "" "api" ⟨c1Attrs, insert 1 (insert 0 ∅)⟩ =
      .ok (⟨c1Attrs, insert 1 (insert 0 ∅)⟩, []) :=
  ⟨rfl, rfl⟩

/-- External checks that accept every URL, MIME type, package path and
encoder. -/
def okExt : Ext :=
  { urlOk := fun _ => true, mimeOk := fun _ => true, pkgPathOk := fun _ => true,
    knownEncoder := fun _ => true, knownNames := [] }

/-- The empty API definition. -/
def okApi : APIDefinition := {}

/-- An attribute arena holding a parameter object whose field `q` has a nil
type. -/
def crashAttrs : List AttributeDefinition := [{ type := some (.object [("q", 1)]) }, {}]

/-- An action whose `Params` object contains the nil-typed parameter `q`. -/
def crashAction : ActionDefinition := { name := "a", routes := [{}], params := some 0 }

/-- An API holding one resource with the one action `crashAction`. -/
def crashApi : APIDefinition := { resources := [{ name := "r", actions := [crashAction] }] }

/-- C2 (amended): whenever the top-level pass completes, every phase ran in
source order, the aggregate is the concatenation of the per-phase diagnostics,
and `Validate` returns nil exactly when that aggregate is empty; completion is
not guaranteed, however — a sub-object check can panic and abandon the pass
(see the counterexample). -/
theorem C2_phase_accumulation (g : Graph) (ext : Ext) (api : APIDefinition)
    (fuel : Nat) (s sf : VState) (errs : List String)
    (h : APIDefinition.Validate g ext api fuel s = .ok (sf, errs)) :
    ∃ (s1 s2 s3 s4 s5 s6 s7 s8 s9 s10 : VState)
      (e1 e2 e3 e4 e5 e6 e7 e8 e9 e10 e11 : List String),
      apiBaseParamsPhase g api fuel s = .ok (s1, e1) ∧
      apiContactPhase ext api s1 = .ok (s2, e2) ∧
      apiLicensePhase ext api s2 = .ok (s3, e3) ∧
      apiDocsPhase ext api s3 = .ok (s4, e4) ∧
      apiResourcePhase g api ext fuel s4 = .ok (s5, e5) ∧
      apiConflictPhase api s5 = .ok (s6, e6) ∧
      apiMediaTypesPhase g fuel s6 = .ok (s7, e7) ∧
      apiUserTypesPhase g api fuel s7 = .ok (s8, e8) ∧
      apiResponsesPhase g api fuel s8 = .ok (s9, e9) ∧
      apiConsumesPhase ext api s9 = .ok (s10, e10) ∧
      apiProducesPhase ext api s10 = .ok (sf, e11) ∧
      errs = e1 ++ (e2 ++ (e3 ++ (e4 ++ (e5 ++ (e6 ++ (e7 ++ (e8 ++ (e9 ++ (e10 ++
        e11))))))))) ∧
      (APIDefinition.ValidateTop g ext api fuel s = .ok (sf, none) ↔ errs = []) := by
  have h0 := h
  unfold APIDefinition.Validate at h
  obtain ⟨s1, e1, r1, hp1, hq1, rfl⟩ := vseq_ok h
  obtain ⟨s2, e2, r2, hp2, hq2, rfl⟩ := vseq_ok hq1
  obtain ⟨s3, e3, r3, hp3, hq3, rfl⟩ := vseq_ok hq2
  obtain ⟨s4, e4, r4, hp4, hq4, rfl⟩ := vseq_ok hq3
  obtain ⟨s5, e5, r5, hp5, hq5, rfl⟩ := vseq_ok hq4
  obtain ⟨s6, e6, r6, hp6, hq6, rfl⟩ := vseq_ok hq5
  obtain ⟨s7, e7, r7, hp7, hq7, rfl⟩ := vseq_ok hq6
  obtain ⟨s8, e8, r8, hp8, hq8, rfl⟩ := vseq_ok hq7
  obtain ⟨s9, e9, r9, hp9, hq9, rfl⟩ := vseq_ok hq8
  obtain ⟨s10, e10, e11, hp10, hp11, rfl⟩ := vseq_ok hq9
  refine ⟨s1, s2, s3, s4, s5, s6, s7, s8, s9, s10,
    e1, e2, e3, e4, e5, e6, e7, e8, e9, e10, e11,
    hp1, hp2, hp3, hp4, hp5, hp6, hp7, hp8, hp9, hp10, hp11, rfl, ?_⟩
  have hv : APIDefinition.ValidateTop g ext api fuel s =
      .ok (sf,
        if (e1 ++ (e2 ++ (e3 ++ (e4 ++ (e5 ++ (e6 ++ (e7 ++ (e8 ++ (e9 ++ (e10 ++
              e11)))))))))).isEmpty
        then none
        else some (e1 ++ (e2 ++ (e3 ++ (e4 ++ (e5 ++ (e6 ++ (e7 ++ (e8 ++ (e9 ++ (e10 ++
              e11))))))))))) := by
    unfold APIDefinition.ValidateTop
    rw [h0]
  rw [hv]
  constructor
  · intro hx
    have h2 := congrArg Prod.snd (Res.ok.inj hx)
    by_cases hbe : (e1 ++ (e2 ++ (e3 ++ (e4 ++ (e5 ++ (e6 ++ (e7 ++ (e8 ++ (e9 ++ (e10 ++
        e11)))))))))).isEmpty
    · exact List.isEmpty_iff.mp hbe
    · rw [if_neg hbe] at h2
      cases h2
  · intro hx
    rw [hx]
    rfl

/-- C2 witness: on the empty API every phase completes with no diagnostics and
the pass returns nil. -/
theorem C2_phase_accumulation_witness :
    ∃ (s1 s2 s3 s4 s5 s6 s7 s8 s9 s10 : VState)
      (e1 e2 e3 e4 e5 e6 e7 e8 e9 e10 e11 : List String),
      apiBaseParamsPhase emptyG okApi 1 ⟨[], ∅⟩ = .ok (s1, e1) ∧
      apiContactPhase okExt okApi s1 = .ok (s2, e2) ∧
      apiLicensePhase okExt okApi s2 = .ok (s3, e3) ∧
      apiDocsPhase okExt okApi s3 = .ok (s4, e4) ∧
      apiResourcePhase emptyG okApi okExt 1 s4 = .ok (s5, e5) ∧
      apiConflictPhase okApi s5 = .ok (s6, e6) ∧
      apiMediaTypesPhase emptyG 1 s6 = .ok (s7, e7) ∧
      apiUserTypesPhase emptyG okApi 1 s7 = .ok (s8, e8) ∧
      apiResponsesPhase emptyG okApi 1 s8 = .ok (s9, e9) ∧
      apiConsumesPhase okExt okApi s9 = .ok (s10, e10) ∧
      apiProducesPhase okExt okApi s10 = .ok (⟨[], ∅⟩, e11) ∧
      ([] : List String) = e1 ++ (e2 ++ (e3 ++ (e4 ++ (e5 ++ (e6 ++ (e7 ++ (e8 ++ (e9 ++
        (e10 ++ e11))))))))) ∧
      (APIDefinition.ValidateTop emptyG okExt okApi 1 ⟨[], ∅⟩ = .ok (⟨[], ∅⟩, none) ↔
        ([] : List String) = []) :=
  C2_phase_accumulation emptyG okExt okApi 1 ⟨[], ∅⟩ ⟨[], ∅⟩ [] rfl

/-- C2 counterexample: a nil-typed action parameter panics the whole pass — no
aggregate is returned, later sub-objects go unchecked, so the engine does stop
before checking every independently-checkable sub-object. -/
theorem C2_param_panic_counterexample :
    APIDefinition.Validate emptyG okExt crashApi 2 ⟨crashAttrs, ∅⟩ = .crash nilDeref :=
  rfl

/-- C6: a parameter whose type is nil is diagnosed, but the check then
unconditionally dereferences the type to read its kind and panics — aborting
the sibling parameter checks and the rest of the pass instead of returning for
that node only. -/
theorem C6_param_nil_type_panic :
    ActionDefinition.ValidateParams emptyG 2 crashAction ⟨crashAttrs, ∅⟩ =
      .crash nilDeref :=
  rfl

/-- The arena of the C7 panic: the media type's object has the one field `f`
whose attribute carries view `default` but is a plain string, not a media
type. -/
def viewAttrs : List AttributeDefinition :=
  [{ type := some (.object [("f", 1)]) }, { type := some (.primitive .str), view := "default" }]

/-- A graph holding the one media type backed by attribute 0. -/
def viewG : Graph := { mediaTypes := [{ typeName := "MT", attr := 0 }] }

/-- C7: when an attribute carries a named view but its type is not a media
type, the check records the diagnostic and then reads `.Views` through the nil
media-type pointer — a panic, so this failure is not collected into the
aggregate and validation does not continue. -/
theorem C7_view_on_non_media_type_panic :
    MediaTypeDefinition.Validate viewG 3 0 ⟨viewAttrs, ∅⟩ = .crash nilDeref :=
  rfl

/-- A graph holding the one media type `MT` backed by attribute 0. -/
def mtG : Graph := { mediaTypes := [{ typeName := "MT", attr := 0 }] }

/-- The starting state of the C10 witness: attribute 0 has a nil type. -/
def mtS : VState := ⟨[{}], ∅⟩

/-- The state the C10 witness run returns: the type slot now holds `String`. -/
def mtSf : VState := ⟨[{ type := some (.primitive .str) }], insert 0 ∅⟩

/-- The diagnostics of the C10 witness run. -/
def mtEf : List String :=
  ["media type 0: attribute type is nil",
   "media type 0: media type does not define the default view, use " ++
     "View(\"default\", ...) to define it."]

/-- C10: validating a media type whose backing attribute has a nil type writes
the `String` primitive into that attribute as a side effect: after a completed
run the attribute's type reads `String`, the attribute is marked validated,
and any later validation pass over the returned state returns immediately with
no diagnostics (in particular no "attribute type is nil"). -/
theorem C10_nil_type_mutation (g : Graph) (fuel mid : Nat)
    (s sf : VState) (ef : List String)
    (hlt : (g.mediaTypes.getD mid defaultMT).attr < s.attrs.length)
    (hnil : (s.attrs.getD (g.mediaTypes.getD mid defaultMT).attr defaultAttr).type = none)
    (hok : MediaTypeDefinition.Validate g fuel mid s = .ok (sf, ef)) :
    (sf.attrs.getD (g.mediaTypes.getD mid defaultMT).attr defaultAttr).type =
      some (DataType.primitive .str) ∧
    (g.mediaTypes.getD mid defaultMT).attr ∈ sf.validated ∧
    ∀ (fuel2 : Nat) (ctx parent : String),
      AttributeDefinition.Validate g fuel2 (g.mediaTypes.getD mid defaultMT).attr
        ctx parent sf = .ok (sf, []) := by
  unfold MediaTypeDefinition.Validate at hok
  simp only at hok
  cases hu : UserTypeDefinition.Validate g fuel
      ⟨(g.mediaTypes.getD mid defaultMT).typeName, (g.mediaTypes.getD mid defaultMT).attr⟩
      "" (mtContext mid) s with
  | crash m => rw [hu] at hok; cases hok
  | out => rw [hu] at hok; cases hok
  | ok pr =>
    obtain ⟨s1, e1⟩ := pr
    rw [hu] at hok
    simp only at hok
    have hmu := vmmono_userType g fuel
      ⟨(g.mediaTypes.getD mid defaultMT).typeName, (g.mediaTypes.getD mid defaultMT).attr⟩
      "" (mtContext mid) s s1 e1 hu
    have hmark : (g.mediaTypes.getD mid defaultMT).attr ∈ s1.validated := by
      have hu2 := hu
      unfold UserTypeDefinition.Validate at hu2
      obtain ⟨sa, ea, eb, hva, hvb, _⟩ := vseq_ok hu2
      cases hva
      exact (Validate_mono g fuel _ "" (mtContext mid) s s1 eb hvb).2.2
    rw [hmu.1, if_pos hnil] at hok
    cases ht : mtTail g fuel mid (setAttrType s1 (g.mediaTypes.getD mid defaultMT).attr
        (.primitive .str)) with
    | crash m => rw [ht] at hok; cases hok
    | out => rw [ht] at hok; cases hok
    | ok pr2 =>
      obtain ⟨s5, e2⟩ := pr2
      rw [ht] at hok
      simp only at hok
      have hmt := vmmono_mtTail g fuel mid _ s5 e2 ht
      have hmem : (g.mediaTypes.getD mid defaultMT).attr ∈ s5.validated := hmt.2 hmark
      have hty : (s5.attrs.getD (g.mediaTypes.getD mid defaultMT).attr defaultAttr).type =
          some (DataType.primitive .str) := by
        rw [hmt.1]
        exact setAttrType_getD s1 _ _ (by rw [hmu.1]; exact hlt)
      cases hok
      exact ⟨hty, hmem,
        fun fuel2 ctx parent => Validate_skip g fuel2 _ ctx parent _ hmem⟩

/-- C10 witness: the one-media-type graph whose backing attribute starts nil —
the run mutates the slot to `String` and a later pass sees no nil type. -/
theorem C10_nil_type_mutation_witness :
    ((mtG.mediaTypes.getD 0 defaultMT).attr < mtS.attrs.length ∧
      (mtS.attrs.getD (mtG.mediaTypes.getD 0 defaultMT).attr defaultAttr).type = none ∧
      MediaTypeDefinition.Validate mtG 2 0 mtS = .ok (mtSf, mtEf)) ∧
    ((mtSf.attrs.getD (mtG.mediaTypes.getD 0 defaultMT).attr defaultAttr).type =
        some (DataType.primitive .str) ∧
      (mtG.mediaTypes.getD 0 defaultMT).attr ∈ mtSf.validated ∧
      ∀ (fuel2 : Nat) (ctx parent : String),
        AttributeDefinition.Validate mtG fuel2 (mtG.mediaTypes.getD 0 defaultMT).attr
          ctx parent mtSf = .ok (mtSf, [])) :=
  ⟨⟨by decide, rfl, rfl⟩,
    C10_nil_type_mutation mtG 2 0 mtS mtSf mtEf (by decide) rfl rfl⟩

end Design

end Goa
